import Mathlib

/-!
Verification development for the AI Pokemon Arena server: a shallow
embedding of the PokeAPI data client (`src/services/pokeapi.ts`), the
Gemini battle-result parser (`src/services/gemini.ts`), the MCP tool
adapter (`src/tools/pokemon-tools.ts`, `src/utils/helpers.ts`) and the
Express battle endpoint (`server.js`), together with theorems about the
statistical fallback, the section parser, validation, pagination,
normalization and the response cache.

Strings manipulated character by character (the battle-narrative parser)
are embedded as `List Char`; JavaScript string primitives (`trim`,
`toLowerCase`, `startsWith`, first-occurrence `replace`, `split('\n')`)
are modelled explicitly below.  Whole-string values that are only built
and compared (names, messages, rendered text) stay as Lean `String`.
-/

/-- The line type used by the narrative parser: a JS string viewed as its
character list. -/
abbrev Line := List Char

/-- Whitespace as recognised by JS `trim` / `\s` (ASCII fragment: space,
tab, newline, carriage return, vertical tab, form feed). -/
def isWsChar (c : Char) : Bool :=
  c = ' ' || c = '\t' || c = '\n' || c = '\r' || c = '\x0b' || c = '\x0c'

/-- JS `String.prototype.trim`: drop leading and trailing whitespace. -/
def jsTrim (l : Line) : Line :=
  ((l.dropWhile isWsChar).reverse.dropWhile isWsChar).reverse

/-- JS `String.prototype.toLowerCase` (ASCII fragment). -/
def jsToLower (l : Line) : Line := l.map Char.toLower

/-- JS `String.prototype.startsWith` on character lists. -/
def startsWithL : Line → Line → Bool
  | [], _ => true
  | _ :: _, [] => false
  | p :: ps, c :: cs => p = c && startsWithL ps cs

/-- JS `String.prototype.replace` with a plain-string pattern and empty
replacement: removes the first occurrence of `pat`. -/
def replaceFirst (pat : Line) : Line → Line
  | [] => []
  | c :: rest =>
    if startsWithL pat (c :: rest) then (c :: rest).drop pat.length
    else c :: replaceFirst pat rest

/-- JS `String.prototype.split('\n')` on character lists. -/
def splitLines : Line → List Line
  | [] => [[]]
  | c :: rest =>
    match splitLines rest with
    | [] => [[c]]
    | l :: ls => if c = '\n' then [] :: l :: ls else (c :: l) :: ls

/-- Join lines with `'\n'` separators (left inverse of `splitLines` on
newline-free lines); used to build concrete narrative inputs. -/
def joinNL : List Line → Line
  | [] => []
  | [l] => l
  | l :: l2 :: ls => l ++ '\n' :: joinNL (l2 :: ls)

/-- Space-join of accumulated section lines, starting from an existing
accumulator, mirroring `acc += (acc ? ' ' : '') + line`. -/
def joinFrom (acc : Line) : List Line → Line
  | [] => acc
  | x :: xs => joinFrom (acc ++ (if acc = [] then [] else [' ']) ++ x) xs

/-- Space-join of a list of lines (the net effect of `joinFrom` from an
empty accumulator over non-empty lines). -/
def spaceJoin : List Line → Line
  | [] => []
  | [x] => x
  | x :: y :: xs => x ++ ' ' :: spaceJoin (y :: xs)

/-- A named remote resource: the `{ name, url }` shape of PokeAPI
references, with the URL dropped (never read by this code). -/
structure NamedRes where
  name : String
  deriving DecidableEq, Repr

/-- One entry of `pokemon.stats` (`PokemonStat` in `types/pokemon.ts`). -/
structure PokemonStat where
  base_stat : Nat
  stat : NamedRes
  deriving DecidableEq, Repr

/-- One entry of `pokemon.types` (`PokemonType`). -/
structure PokemonType where
  slot : Nat
  type : NamedRes
  deriving DecidableEq, Repr

/-- One entry of `pokemon.abilities` (`PokemonAbility`). -/
structure PokemonAbility where
  is_hidden : Bool
  slot : Nat
  ability : NamedRes
  deriving DecidableEq, Repr

/-- The raw `Pokemon` record (fields consumed by
`transformToSimplifiedPokemon`; unused payload fields omitted). -/
structure Pokemon where
  id : Nat
  name : String
  base_experience : Nat
  height : Nat
  weight : Nat
  abilities : List PokemonAbility
  stats : List PokemonStat
  types : List PokemonType
  deriving DecidableEq, Repr

/-- One entry of `species.flavor_text_entries`. -/
structure FlavorTextEntry where
  flavor_text : String
  language : NamedRes
  deriving DecidableEq, Repr

/-- The raw `PokemonSpecies` record (fields consumed by
`transformToSimplifiedPokemon`). -/
structure PokemonSpecies where
  id : Nat
  name : String
  is_legendary : Bool
  is_mythical : Bool
  flavor_text_entries : List FlavorTextEntry
  generation : NamedRes
  deriving DecidableEq, Repr

/-- The six named stats plus their total (`SimplifiedPokemon.stats`). -/
structure Stats where
  hp : Nat
  attack : Nat
  defense : Nat
  specialAttack : Nat
  specialDefense : Nat
  speed : Nat
  total : Nat
  deriving DecidableEq, Repr

/-- The flattened projection `SimplifiedPokemon` from `types/pokemon.ts`. -/
structure SimplifiedPokemon where
  id : Nat
  name : String
  types : List String
  stats : Stats
  abilities : List String
  height : Nat
  weight : Nat
  baseExperience : Nat
  isLegendary : Bool
  isMythical : Bool
  description : String
  generation : String
  deriving DecidableEq, Repr

/-- `BattleResult` as produced by the narrative parser, in the
character-list world. -/
structure BattleResultP where
  winner : Line
  loser : Line
  battleLog : List Line
  analysis : Line
  summary : Line
  deriving DecidableEq, Repr

/-- `BattleResult` in the whole-string world (as consumed by the tool
formatter and built by the web server fallback). -/
structure BattleResultS where
  winner : String
  loser : String
  battleLog : List String
  analysis : String
  summary : String
  deriving DecidableEq, Repr

namespace Helpers

/-- A character kept by the sanitizer regex `[^a-z0-9-]` removal:
lowercase ASCII letter, ASCII digit or hyphen. -/
def isAllowedChar (c : Char) : Bool :=
  ('a' ≤ c && c ≤ 'z') || ('0' ≤ c && c ≤ '9') || c = '-'

/-- `sanitizeInput` from `utils/helpers.ts`:
`input.trim().toLowerCase().replace(/[^a-z0-9\-]/g, '')`. -/
def sanitizeInput (input : String) : String :=
  String.mk ((jsToLower (jsTrim input.data)).filter isAllowedChar)

/-- ASCII digit test (JS `[0-9]`). -/
def isDigitB (c : Char) : Bool := '0' ≤ c && c ≤ '9'

/-- ASCII lowercase hex digit. -/
def isHexDigitB (c : Char) : Bool := isDigitB c || ('a' ≤ c && c ≤ 'f')

/-- ASCII octal digit. -/
def isOctDigitB (c : Char) : Bool := '0' ≤ c && c ≤ '7'

/-- ASCII binary digit. -/
def isBinDigitB (c : Char) : Bool := c = '0' || c = '1'

/-- Non-empty run of decimal digits. -/
def expDigits (l : Line) : Bool := !l.isEmpty && l.all isDigitB

/-- Exponent tail after `e`: optional `-` sign then digits (`+` cannot
survive the sanitizer). -/
def expPart : Line → Bool
  | '-' :: r => expDigits r
  | r => expDigits r

/-- What may follow the leading digit run of a decimal numeric string:
nothing, or an `e` exponent (a `.` fraction cannot survive the
sanitizer). -/
def afterDigits : Line → Bool
  | [] => true
  | 'e' :: r => expPart r
  | _ => false

/-- Unsigned decimal numeric string: digits, optionally `e`-exponent. -/
def unsignedDec (l : Line) : Bool :=
  !(l.takeWhile isDigitB).isEmpty && afterDigits (l.dropWhile isDigitB)

/-- Optionally `-`-signed decimal numeric string. -/
def signedDec : Line → Bool
  | '-' :: r => unsignedDec r
  | l => unsignedDec l

/-- `isNumeric` from `utils/helpers.ts`:
`!isNaN(Number(str)) && !isNaN(parseFloat(str))`, specialised to
strings over the sanitizer's output alphabet `[a-z0-9-]` (the only
strings it is applied to).  On that alphabet JS `Number` accepts exactly
the signed decimal strings with optional `e`-exponent and the unsigned
`0x`/`0o`/`0b` radix literals, and whenever `Number` accepts,
`parseFloat` also returns a number (every such string starts with a
digit or a signed digit), so the conjunction reduces to this grammar. -/
def isNumeric (l : Line) : Bool :=
  match l with
  | '0' :: 'x' :: r => !r.isEmpty && r.all isHexDigitB
  | '0' :: 'o' :: r => !r.isEmpty && r.all isOctDigitB
  | '0' :: 'b' :: r => !r.isEmpty && r.all isBinDigitB
  | _ => signedDec l

/-- The regex `/^[a-z\-]+$/` from `validatePokemonIdentifier`. -/
def isAlphaHyphen (l : Line) : Bool :=
  !l.isEmpty && l.all (fun c => ('a' ≤ c && c ≤ 'z') || c = '-')

/-- The `{ isValid, sanitized }` record returned by
`validatePokemonIdentifier`. -/
structure ValidationResult where
  isValid : Bool
  sanitized : String
  deriving DecidableEq, Repr

/-- `validatePokemonIdentifier` from `utils/helpers.ts`. -/
def validatePokemonIdentifier (identifier : String) : ValidationResult :=
  let sanitized := sanitizeInput identifier
  { isValid := sanitized.length > 0 &&
      (isNumeric sanitized.data || isAlphaHyphen sanitized.data),
    sanitized := sanitized }

/-- `capitalizeFirst` from `utils/helpers.ts`:
`str.charAt(0).toUpperCase() + str.slice(1)`. -/
def capitalizeFirst (s : String) : String :=
  match s.data with
  | [] => ""
  | c :: rest => String.mk (c.toUpper :: rest)

/-- `formatPokemonName` from `utils/helpers.ts`:
`name.split('-').map(capitalizeFirst).join(' ')`. -/
def formatPokemonName (name : String) : String :=
  String.intercalate " " ((name.splitOn "-").map capitalizeFirst)

end Helpers

namespace Gemini

/-- The `currentSection` tracker of `parseBattleResult` (the source uses
the strings `''`, `'winner'`, `'battleLog'`, `'analysis'`,
`'summary'`). -/
inductive Sect where
  | none
  | winner
  | battleLog
  | analysis
  | summary
  deriving DecidableEq, Repr

/-- The mutable locals of `parseBattleResult` during the line scan. -/
structure ParseState where
  winner : Line
  loser : Line
  battleLog : List Line
  analysis : Line
  summary : Line
  currentSection : Sect
  deriving DecidableEq, Repr

/-- `'**WINNER:**'` heading marker. -/
def hdWINNER : Line := "**WINNER:**".data

/-- `'**BATTLE LOG:**'` heading marker. -/
def hdLOG : Line := "**BATTLE LOG:**".data

/-- `'**STRATEGIC ANALYSIS:**'` heading marker. -/
def hdANALYSIS : Line := "**STRATEGIC ANALYSIS:**".data

/-- `'**SUMMARY:**'` heading marker. -/
def hdSUMMARY : Line := "**SUMMARY:**".data

/-- `'**'`, the marker that causes an unrecognized heading-like line to
be dropped. -/
def hdStars : Line := "**".data

/-- The body of the `for (const line of lines)` loop of
`parseBattleResult` in `services/gemini.ts`, as a state transformer. -/
def parseLine (pokemon1 pokemon2 : SimplifiedPokemon) (st : ParseState)
    (line : Line) : ParseState :=
  let t := jsTrim line
  if startsWithL hdWINNER t then
    let w := jsTrim (replaceFirst hdWINNER t)
    { st with
      currentSection := Sect.winner
      winner := w
      loser := if jsToLower w = jsToLower pokemon1.name.data
               then pokemon2.name.data else pokemon1.name.data }
  else if startsWithL hdLOG t then { st with currentSection := Sect.battleLog }
  else if startsWithL hdANALYSIS t then { st with currentSection := Sect.analysis }
  else if startsWithL hdSUMMARY t then { st with currentSection := Sect.summary }
  else if !t.isEmpty && !startsWithL hdStars t then
    match st.currentSection with
    | Sect.battleLog => { st with battleLog := st.battleLog ++ [t] }
    | Sect.analysis =>
        { st with analysis := st.analysis ++ (if st.analysis = [] then [] else [' ']) ++ t }
    | Sect.summary =>
        { st with summary := st.summary ++ (if st.summary = [] then [] else [' ']) ++ t }
    | _ => st
  else st

/-- The fixed analysis fallback string of `parseBattleResult`. -/
def fallbackAnalysis : Line :=
  "Statistical analysis determined the outcome based on overall battle capability.".data

/-- The suffix of the summary fallback template of `parseBattleResult`. -/
def emergedVictorious : Line :=
  " emerged victorious in this Pokemon battle.".data

/-- `parseBattleResult` from `services/gemini.ts`: scan the narrative
lines accumulating the four labelled sections, then apply the
independent field-level fallbacks. -/
def parseBattleResult (battleNarrative : Line)
    (pokemon1 pokemon2 : SimplifiedPokemon) : BattleResultP :=
  let st0 : ParseState := ⟨[], [], [], [], [], Sect.none⟩
  let st := (splitLines battleNarrative).foldl (parseLine pokemon1 pokemon2) st0
  let winner :=
    if st.winner = [] then
      if pokemon1.stats.total > pokemon2.stats.total
      then pokemon1.name.data else pokemon2.name.data
    else st.winner
  let loser :=
    if st.winner = [] then
      if winner = pokemon1.name.data then pokemon2.name.data else pokemon1.name.data
    else st.loser
  let battleLog := if st.battleLog = [] then [battleNarrative] else st.battleLog
  let analysis := if st.analysis = [] then fallbackAnalysis else st.analysis
  let summary := if st.summary = [] then winner ++ emergedVictorious else st.summary
  ⟨winner, loser, battleLog, analysis, summary⟩

end Gemini

namespace PokeApi

/-- `CACHE_TTL` from `services/pokeapi.ts`: 30 minutes in
milliseconds. -/
def CACHE_TTL : Int := 1000 * 60 * 30

/-- One value of the private `cache` map: `{ data, timestamp }`. -/
structure CacheEntry (α : Type) where
  data : α
  timestamp : Int
  deriving DecidableEq, Repr

/-- The in-memory cache: an insertion-ordered map from endpoint string
to entry, as a JS `Map`. -/
abbrev Cache (α : Type) := List (String × CacheEntry α)

/-- `Map.prototype.get`. -/
def mapGet {β : Type} (m : List (String × β)) (k : String) : Option β :=
  (m.find? (fun p => p.1 == k)).map (fun p => p.2)

/-- `Map.prototype.set`: overwrite in place if the key is present,
append otherwise. -/
def mapSet {β : Type} : List (String × β) → String → β → List (String × β)
  | [], k, v => [(k, v)]
  | (k1, v1) :: rest, k, v =>
    if k1 == k then (k, v) :: rest else (k1, v1) :: mapSet rest k v

/-- `isValidCache` from `services/pokeapi.ts`:
`Date.now() - cacheEntry.timestamp < this.CACHE_TTL`. -/
def isValidCache {α : Type} (now : Int) (cacheEntry : CacheEntry α) : Bool :=
  now - cacheEntry.timestamp < CACHE_TTL

/-- The result of one `fetchWithCache` call: the returned (or thrown)
value, the cache state after the call, and whether a remote HTTP
request was issued (`this.api.get`). -/
structure FetchOutcome (α : Type) where
  result : Except String α
  cache : Cache α
  remoteCalled : Bool
  deriving Repr

/-- `fetchWithCache` from `services/pokeapi.ts`.  The single suspension
point (`this.api.get(endpoint)`) is abstracted by the `remote`
parameter: the value the network would deliver (or the error it would
throw) if a request were issued on this call. -/
def fetchWithCache {α : Type} (cache : Cache α) (now : Int) (endpoint : String)
    (remote : Except String α) : FetchOutcome α :=
  match mapGet cache endpoint with
  | some cached =>
    if isValidCache now cached then ⟨Except.ok cached.data, cache, false⟩
    else
      match remote with
      | Except.ok data => ⟨Except.ok data, mapSet cache endpoint ⟨data, now⟩, true⟩
      | Except.error m =>
        ⟨Except.error ("Failed to fetch " ++ endpoint ++ ": " ++ m), cache, true⟩
  | none =>
    match remote with
    | Except.ok data => ⟨Except.ok data, mapSet cache endpoint ⟨data, now⟩, true⟩
    | Except.error m =>
      ⟨Except.error ("Failed to fetch " ++ endpoint ++ ": " ++ m), cache, true⟩

/-- Extraction of one named stat:
`pokemon.stats.find(s => s.stat.name === n)?.base_stat || 0` (for the
`Nat`-valued `base_stat`, `|| 0` is the identity on a found value). -/
def statByName (stats : List PokemonStat) (n : String) : Nat :=
  ((stats.find? (fun s => s.stat.name == n)).map (fun s => s.base_stat)).getD 0

/-- The slot comparator `(a, b) => a.slot - b.slot` as an order
relation; `Array.prototype.sort` with a consistent comparator is a
stable ascending sort (modelled by insertion sort). -/
def slotLe (a b : PokemonType) : Prop := a.slot ≤ b.slot

/-- The slot comparator for abilities. -/
def slotLeA (a b : PokemonAbility) : Prop := a.slot ≤ b.slot

instance : DecidableRel slotLe := fun a b => Nat.decLe a.slot b.slot

instance : DecidableRel slotLeA := fun a b => Nat.decLe a.slot b.slot

instance : IsTotal PokemonType slotLe := ⟨fun a b => Nat.le_total a.slot b.slot⟩

instance : IsTrans PokemonType slotLe := ⟨fun _ _ _ => Nat.le_trans⟩

instance : IsTotal PokemonAbility slotLeA := ⟨fun a b => Nat.le_total a.slot b.slot⟩

instance : IsTrans PokemonAbility slotLeA := ⟨fun _ _ _ => Nat.le_trans⟩

/-- Whitespace collapsing `replace(/\s+/g, ' ')`: every maximal
whitespace run becomes a single space (the flag tracks whether the
previous character was part of a run). -/
def collapseWsAux : Bool → Line → Line
  | _, [] => []
  | prevWs, c :: rest =>
    if isWsChar c then
      (if prevWs then [] else [' ']) ++ collapseWsAux true rest
    else c :: collapseWsAux false rest

/-- The description clean-up chain of `transformToSimplifiedPokemon`:
`.replace(/\f/g, ' ').replace(/\n/g, ' ').replace(/\s+/g, ' ').trim()`
(the first two replacements are subsumed by the whitespace collapse,
which treats `\f` and `\n` as whitespace). -/
def cleanDescription (s : String) : String :=
  String.mk (jsTrim (collapseWsAux false s.data))

/-- The default description used when no English flavor text is found
(or the cleaned text is empty, via JS `||`). -/
def noDescription : String := "No description available."

/-- `transformToSimplifiedPokemon` from `services/pokeapi.ts`. -/
def transformToSimplifiedPokemon (pokemon : Pokemon) (species : PokemonSpecies) :
    SimplifiedPokemon :=
  let hp := statByName pokemon.stats "hp"
  let attack := statByName pokemon.stats "attack"
  let defense := statByName pokemon.stats "defense"
  let specialAttack := statByName pokemon.stats "special-attack"
  let specialDefense := statByName pokemon.stats "special-defense"
  let speed := statByName pokemon.stats "speed"
  let stats : Stats :=
    ⟨hp, attack, defense, specialAttack, specialDefense, speed,
     hp + attack + defense + specialAttack + specialDefense + speed⟩
  let types := (pokemon.types.insertionSort slotLe).map (fun t => t.type.name)
  let abilities := (pokemon.abilities.insertionSort slotLeA).map (fun a => a.ability.name)
  let englishFlavorText :=
    match species.flavor_text_entries.find? (fun entry => entry.language.name == "en") with
    | some entry =>
      let cleaned := cleanDescription entry.flavor_text
      if cleaned = "" then noDescription else cleaned
    | none => noDescription
  { id := pokemon.id
    name := pokemon.name
    types := types
    stats := stats
    abilities := abilities
    height := pokemon.height
    weight := pokemon.weight
    baseExperience := pokemon.base_experience
    isLegendary := species.is_legendary
    isMythical := species.is_mythical
    description := englishFlavorText
    generation := species.generation.name }

end PokeApi

namespace Tools

/-- A tool-invocation result: the single text content item plus the
`isError` flag (absent in the source on success, i.e. `false`). -/
structure CallToolResult where
  text : String
  isError : Bool
  deriving DecidableEq, Repr

/-- `formatBattleResult` from `tools/pokemon-tools.ts`. -/
def formatBattleResult (result : BattleResultS) (pokemon1 pokemon2 : SimplifiedPokemon) :
    String :=
  let formattedName1 := Helpers.formatPokemonName pokemon1.name
  let formattedName2 := Helpers.formatPokemonName pokemon2.name
  let formattedWinner := Helpers.formatPokemonName result.winner
  "# Battle Simulation: " ++ formattedName1 ++ " vs " ++ formattedName2 ++
  "\n\n## Battle Result\n🏆 **Winner:** " ++ formattedWinner ++
  "\n\n## Battle Narrative\n" ++ String.intercalate "\n\n" result.battleLog ++
  "\n\n## Strategic Analysis\n" ++ result.analysis ++
  "\n\n## Summary\n" ++ result.summary ++
  "\n\n---\n*Battle simulation powered by Gemini AI*"

/-- `battleSimulation` from `tools/pokemon-tools.ts`.  The two
`getCompletePokemonData` awaits and the `gemini.simulateBattle` await
are abstracted by `Except` parameters carrying what each call would
deliver or throw; any thrown error reaches the surrounding catch, which
wraps it via `handleError(error, 'battleSimulation')` into an
error-flagged text result. -/
def battleSimulation (pokemon1 pokemon2 : String)
    (fetch1 fetch2 : Except String SimplifiedPokemon)
    (gemini : Except String BattleResultS) : CallToolResult :=
  let validation1 := Helpers.validatePokemonIdentifier pokemon1
  let validation2 := Helpers.validatePokemonIdentifier pokemon2
  if !validation1.isValid || !validation2.isValid then
    ⟨"Invalid Pokemon identifiers. Please provide valid Pokemon names or Pokedex numbers.",
     true⟩
  else
    match fetch1, fetch2 with
    | Except.ok p1, Except.ok p2 =>
      match gemini with
      | Except.ok battleResult =>
        ⟨formatBattleResult battleResult p1 p2, false⟩
      | Except.error m =>
        ⟨"Error simulating battle: battleSimulation: " ++ m, true⟩
    | Except.error m, _ =>
      ⟨"Error simulating battle: battleSimulation: " ++ m, true⟩
    | _, Except.error m =>
      ⟨"Error simulating battle: battleSimulation: " ++ m, true⟩

/-- The `(limit, offset)` pair `getPokemonList` in
`tools/pokemon-tools.ts` passes to `pokeApi.getPokemonList`:
`Math.min(args.limit || 20, 100)` and `args.offset || 0` (`none`
models an absent argument; JS `||` also replaces `0`). -/
def getPokemonListArgs (limit offset : Option Int) : Int × Int :=
  let l := match limit with
    | none => 20
    | some v => if v = 0 then 20 else v
  let o := match offset with
    | none => 0
    | some v => if v = 0 then 0 else v
  (min l 100, o)

end Tools

namespace WebServer

/-- The `geminiError` witness attached to the fallback outcome in
`server.js`. -/
structure GeminiErrorInfo where
  occurred : Bool
  message : String
  fallbackUsed : Bool
  deriving DecidableEq, Repr

/-- The `metadata` object added to every successful `/api/battle`
response. -/
structure BattleMetadata where
  timestamp : String
  usingFallback : Bool
  pokemon1 : String
  pokemon2 : String
  serverStatus : String
  deriving DecidableEq, Repr

/-- The JSON body of a successful `/api/battle` response: the battle
result fields, the optional `geminiError` witness, and the metadata. -/
structure BattlePayload where
  result : BattleResultS
  geminiError : Option GeminiErrorInfo
  metadata : BattleMetadata
  deriving DecidableEq, Repr

/-- The observable responses of the `POST /api/battle` handler. -/
inductive ApiResponse where
  | ok (payload : BattlePayload)
  | badRequest (error : String)
  | serverError (error details : String)
  deriving DecidableEq, Repr

/-- The enhanced fallback battle result built inside the `geminiError`
catch of `POST /api/battle` in `server.js` (battle result plus error
witness). -/
def fallbackBattleResult (completeData1 completeData2 : SimplifiedPokemon)
    (geminiErrorMessage : String) : BattleResultS × GeminiErrorInfo :=
  let winner := if completeData1.stats.total > completeData2.stats.total
                then completeData1.name else completeData2.name
  let loser := if winner = completeData1.name then completeData2.name else completeData1.name
  let winnerData := if winner = completeData1.name then completeData1 else completeData2
  let loserData := if winner = completeData1.name then completeData2 else completeData1
  (⟨winner, loser,
    [completeData1.name ++ " enters the battlefield with " ++
       toString completeData1.stats.hp ++ " HP!",
     completeData2.name ++ " prepares for battle with " ++
       toString completeData2.stats.speed ++ " speed!",
     winner ++ " used " ++ (winnerData.types.head?.getD "undefined") ++ "-type attack!",
     loser ++ " counters with a defensive move!",
     winner ++ " lands a critical hit with superior stats!",
     loser ++ " is defeated! " ++ winner ++ " emerges victorious!"],
    winner ++ " won due to superior total stats (" ++ toString winnerData.stats.total ++
      " vs " ++ toString loserData.stats.total ++ "). Key advantages: " ++
      (if winnerData.stats.attack > loserData.stats.attack then "Higher Attack" else "") ++
      " " ++
      (if winnerData.stats.speed > loserData.stats.speed then "Faster Speed" else "") ++
      " " ++
      (if winnerData.stats.hp > loserData.stats.hp then "More HP" else "") ++
      ". Type advantage: " ++ String.intercalate "/" winnerData.types ++ " vs " ++
      String.intercalate "/" loserData.types ++ ".",
    winner ++ " dominated this Pokemon battle through statistical superiority and " ++
      "strategic type advantages."⟩,
   ⟨true, geminiErrorMessage, true⟩)

/-- The `POST /api/battle` handler of `server.js`.  The two
`getCompletePokemonData` awaits and the `gemini.simulateBattle` await
are abstracted by `Except` parameters; a fetch rejection escapes to the
outer catch (500), while a Gemini rejection is absorbed by the inner
catch, which installs the statistical fallback and flags
`usingFallback` in the metadata. -/
def postApiBattle (pokemon1 pokemon2 : Option String)
    (fetch1 fetch2 : Except String SimplifiedPokemon)
    (gemini : Except String BattleResultS) (nowIso : String) : ApiResponse :=
  match pokemon1, pokemon2 with
  | some _, some _ =>
    match fetch1, fetch2 with
    | Except.ok completeData1, Except.ok completeData2 =>
      let step : BattleResultS × Option GeminiErrorInfo × Bool :=
        match gemini with
        | Except.ok battleResult => (battleResult, none, false)
        | Except.error m =>
          let fb := fallbackBattleResult completeData1 completeData2 m
          (fb.1, some fb.2, true)
      ApiResponse.ok
        ⟨step.1, step.2.1,
         ⟨nowIso, step.2.2, completeData1.name, completeData2.name, "success"⟩⟩
    | Except.error m, _ => ApiResponse.serverError "Battle simulation failed" m
    | _, Except.error m => ApiResponse.serverError "Battle simulation failed" m
  | _, _ => ApiResponse.badRequest "Both Pokemon are required"

end WebServer

namespace Gemini

/-- A well-formed section content line: already trimmed, non-empty, not
heading-like (does not start with `**`), and newline-free. -/
def ContentLine (l : Line) : Prop :=
  jsTrim l = l ∧ l ≠ [] ∧ startsWithL hdStars l = false ∧ '\n' ∉ l

instance : DecidablePred ContentLine := fun l => by
  unfold ContentLine; infer_instance

/-- The four labelled sections as block identifiers, used to state
order-independence of the parser. -/
inductive BlockKind where
  | w
  | l
  | a
  | s
  deriving DecidableEq, Repr

/-- The lines of one well-formed section block: its heading line
followed by its content lines (the winner block carries its declared
name on the heading line itself, as the parser requires). -/
def blockLines (wname : Line) (L A S : List Line) : BlockKind → List Line
  | BlockKind.w => [hdWINNER ++ wname]
  | BlockKind.l => hdLOG :: L
  | BlockKind.a => hdANALYSIS :: A
  | BlockKind.s => hdSUMMARY :: S

/-- The net effect of scanning one well-formed block on the parser
state. -/
def blockEffect (pokemon1 pokemon2 : SimplifiedPokemon) (wname : Line) (L A S : List Line) :
    BlockKind → ParseState → ParseState
  | BlockKind.w, st =>
    { st with
      currentSection := Sect.winner
      winner := wname
      loser := if jsToLower wname = jsToLower pokemon1.name.data
               then pokemon2.name.data else pokemon1.name.data }
  | BlockKind.l, st =>
    { st with currentSection := Sect.battleLog, battleLog := st.battleLog ++ L }
  | BlockKind.a, st =>
    { st with currentSection := Sect.analysis, analysis := joinFrom st.analysis A }
  | BlockKind.s, st =>
    { st with currentSection := Sect.summary, summary := joinFrom st.summary S }

/-- Folding the per-block effects over a block sequence. -/
def blocksFold (pokemon1 pokemon2 : SimplifiedPokemon) (wname : Line) (L A S : List Line)
    (st : ParseState) (blocks : List BlockKind) : ParseState :=
  blocks.foldl (fun st k => blockEffect pokemon1 pokemon2 wname L A S k st) st

end Gemini

/-! ### Concrete fixtures for counterexamples and witnesses -/

/-- A concrete simplified creature with stat total 300. -/
def alphaMon : SimplifiedPokemon :=
  { id := 1, name := "alpha", types := ["fire"]
    stats := { hp := 50, attack := 50, defense := 50, specialAttack := 50,
               specialDefense := 50, speed := 50, total := 300 }
    abilities := ["blaze"], height := 7, weight := 90, baseExperience := 62
    isLegendary := false, isMythical := false
    description := "alpha desc", generation := "generation-i" }

/-- A second concrete simplified creature, also with stat total 300. -/
def betaMon : SimplifiedPokemon :=
  { id := 2, name := "beta", types := ["water"]
    stats := { hp := 60, attack := 40, defense := 50, specialAttack := 50,
               specialDefense := 50, speed := 50, total := 300 }
    abilities := ["torrent"], height := 5, weight := 90, baseExperience := 63
    isLegendary := false, isMythical := false
    description := "beta desc", generation := "generation-i" }

/-- A raw record carrying no stat entries at all. -/
def bareMonRaw : Pokemon :=
  { id := 3, name := "bare", base_experience := 1, height := 1, weight := 1
    abilities := [], stats := [], types := [] }

/-- A species record with no flavor text. -/
def bareSpecies : PokemonSpecies :=
  { id := 3, name := "bare", is_legendary := false, is_mythical := false
    flavor_text_entries := [], generation := { name := "generation-i" } }

/-- A raw record whose two elemental slots and two ability slots repeat
the same names. -/
def dupMonRaw : Pokemon :=
  { id := 4, name := "dupmon", base_experience := 80, height := 10, weight := 100
    abilities := [{ is_hidden := false, slot := 1, ability := { name := "sturdy" } },
                  { is_hidden := true, slot := 2, ability := { name := "sturdy" } }]
    stats := [{ base_stat := 40, stat := { name := "hp" } }]
    types := [{ slot := 1, type := { name := "fire" } },
              { slot := 2, type := { name := "fire" } }] }

/-- A species record for the duplicate-slot fixture. -/
def dupSpecies : PokemonSpecies :=
  { id := 4, name := "dupmon", is_legendary := false, is_mythical := false
    flavor_text_entries := [], generation := { name := "generation-ii" } }

/-! ### Properties of the line primitives -/

theorem startsWithL_append_self (p r : Line) : startsWithL p (p ++ r) = true := by
  induction p with
  | nil => rfl
  | cons c cs ih => simp [startsWithL, ih]

theorem startsWithL_of_startsWithL {p q l : Line}
    (hpq : startsWithL p q = true) (hql : startsWithL q l = true) :
    startsWithL p l = true := by
  induction p generalizing q l with
  | nil => rfl
  | cons c cs ih =>
    match q, l with
    | [], _ => exact absurd hpq (by simp [startsWithL])
    | _ :: _, [] => exact absurd hql (by simp [startsWithL])
    | d :: ds, e :: es =>
      simp only [startsWithL, Bool.and_eq_true, decide_eq_true_eq] at hpq hql ⊢
      exact ⟨hpq.1.trans hql.1, ih hpq.2 hql.2⟩

theorem replaceFirst_append_self {p : Line} (hp : p ≠ []) (r : Line) :
    replaceFirst p (p ++ r) = r := by
  match p, hp with
  | c :: cs, _ =>
    show replaceFirst (c :: cs) (c :: (cs ++ r)) = r
    rw [replaceFirst,
      if_pos (show startsWithL (c :: cs) (c :: (cs ++ r)) = true from
        startsWithL_append_self (c :: cs) r)]
    exact List.drop_left (c :: cs) r

theorem dropWhile_eq_self_of_head {p : α → Bool} {c : α} {l : List α}
    (h : p c = false) : (c :: l).dropWhile p = c :: l := by
  simp [List.dropWhile_cons, h]

theorem jsTrim_eq_self_of (l : Line)
    (h1 : ∀ c r, l = c :: r → isWsChar c = false)
    (h2 : ∀ c r, l.reverse = c :: r → isWsChar c = false) : jsTrim l = l := by
  match hl : l with
  | [] => rfl
  | c :: r =>
    unfold jsTrim
    rw [dropWhile_eq_self_of_head (h1 c r rfl)]
    match hr : (c :: r).reverse with
    | [] => exact absurd hr (by simp)
    | d :: s =>
      rw [dropWhile_eq_self_of_head (h2 d s hr), ← hr, List.reverse_reverse]

theorem jsTrim_last_not_ws {l : Line} (h : jsTrim l = l) {c : Char} {r : Line}
    (hrev : l.reverse = c :: r) : isWsChar c = false := by
  unfold jsTrim at h
  have h2 : (l.dropWhile isWsChar).reverse.dropWhile isWsChar = l.reverse := by
    have := congrArg List.reverse h
    rwa [List.reverse_reverse] at this
  have h3 : (l.dropWhile isWsChar).reverse.dropWhile isWsChar = c :: r := h2.trans hrev
  have h4 := List.head?_dropWhile_not isWsChar (l.dropWhile isWsChar).reverse
  rw [h3] at h4
  simpa using h4

theorem jsTrim_hd_append {hd : Line} {c0 : Char} {hd' : Line}
    (hhd : hd = c0 :: hd') (hc0 : isWsChar c0 = false)
    {w : Line} (hw : jsTrim w = w) (hwne : w ≠ []) :
    jsTrim (hd ++ w) = hd ++ w := by
  apply jsTrim_eq_self_of
  · intro c r hcr
    rw [hhd] at hcr
    have : c = c0 := by
      have : c0 :: (hd' ++ w) = c :: r := by simpa using hcr
      exact (List.cons.injEq _ _ _ _ ▸ this).1.symm
    rwa [this]
  · intro c r hcr
    match hwrev : w.reverse with
    | [] => exact absurd (by simpa using congrArg List.reverse hwrev) hwne
    | d :: s =>
      have hd' : isWsChar d = false := jsTrim_last_not_ws hw hwrev
      rw [List.reverse_append, hwrev] at hcr
      have : c = d := by
        have : d :: (s ++ hd.reverse) = c :: r := by simpa using hcr
        exact (List.cons.injEq _ _ _ _ ▸ this).1.symm
      rwa [this]

theorem splitLines_ne_nil (l : Line) : splitLines l ≠ [] := by
  match l with
  | [] => simp [splitLines]
  | c :: rest =>
    unfold splitLines
    cases hsp : splitLines rest with
    | nil => simp
    | cons a as =>
      show (if c = '\n' then [] :: a :: as else (c :: a) :: as) ≠ []
      split <;> simp

theorem splitLines_no_newline {l : Line} (h : '\n' ∉ l) : splitLines l = [l] := by
  induction l with
  | nil => rfl
  | cons c rest ih =>
    have hc : c ≠ '\n' := fun hc => h (hc ▸ List.mem_cons_self c rest)
    have hrest : '\n' ∉ rest := fun hr => h (List.mem_cons_of_mem c hr)
    unfold splitLines
    rw [ih hrest]
    simp [hc]

theorem splitLines_append_newline {l : Line} (h : '\n' ∉ l) (r : Line) :
    splitLines (l ++ '\n' :: r) = l :: splitLines r := by
  induction l with
  | nil =>
    show splitLines ('\n' :: r) = [] :: splitLines r
    rw [splitLines]
    cases hsp : splitLines r with
    | nil => exact absurd hsp (splitLines_ne_nil r)
    | cons a as => simp
  | cons c rest ih =>
    have hc : c ≠ '\n' := fun hc => h (hc ▸ List.mem_cons_self c rest)
    have hrest : '\n' ∉ rest := fun hr => h (List.mem_cons_of_mem c hr)
    show splitLines (c :: (rest ++ '\n' :: r)) = (c :: rest) :: splitLines r
    rw [splitLines, ih hrest]
    simp [hc]

theorem splitLines_joinNL {ls : List Line} (hne : ls ≠ [])
    (h : ∀ l ∈ ls, '\n' ∉ l) : splitLines (joinNL ls) = ls := by
  induction ls with
  | nil => exact absurd rfl hne
  | cons l rest ih =>
    match rest with
    | [] => exact splitLines_no_newline (h l (List.mem_cons_self l []))
    | l2 :: rest' =>
      show splitLines (l ++ '\n' :: joinNL (l2 :: rest')) = l :: (l2 :: rest')
      rw [splitLines_append_newline (h l (List.mem_cons_self _ _))]
      rw [ih (by simp) (fun x hx => h x (List.mem_cons_of_mem l hx))]

theorem joinFrom_nil_right (acc : Line) : joinFrom acc [] = acc := rfl

theorem joinFrom_cons_of_ne {acc : Line} (hacc : acc ≠ []) (x : Line) (xs : List Line) :
    joinFrom acc (x :: xs) = acc ++ ' ' :: spaceJoin (x :: xs) := by
  induction xs generalizing acc x with
  | nil => simp [joinFrom, spaceJoin, hacc]
  | cons y ys ih =>
    show joinFrom (acc ++ (if acc = [] then [] else [' ']) ++ x) (y :: ys) = _
    rw [if_neg hacc]
    rw [@ih (acc ++ [' '] ++ x) (by simp) y]
    show (acc ++ [' '] ++ x) ++ ' ' :: spaceJoin (y :: ys) =
      acc ++ ' ' :: (x ++ ' ' :: spaceJoin (y :: ys))
    simp [List.append_assoc]

theorem joinFrom_nil_left {x : Line} (hx : x ≠ []) (xs : List Line) :
    joinFrom [] (x :: xs) = spaceJoin (x :: xs) := by
  show joinFrom ([] ++ (if ([] : Line) = [] then [] else [' ']) ++ x) xs = _
  simp only [if_pos rfl, List.nil_append]
  match xs with
  | [] => rfl
  | y :: ys => exact joinFrom_cons_of_ne hx y ys

theorem spaceJoin_ne_nil {A : List Line} (hne : A ≠ []) (h : ∀ l ∈ A, l ≠ []) :
    spaceJoin A ≠ [] := by
  match A with
  | [x] => exact h x (List.mem_cons_self _ _)
  | x :: y :: ys =>
    show x ++ ' ' :: spaceJoin (y :: ys) ≠ []
    simp [h x (List.mem_cons_self _ _)]

namespace Gemini

theorem not_winner_heading_of_content {l : Line} (h : startsWithL hdStars l = false) :
    startsWithL hdWINNER l = false := by
  by_contra hw
  rw [startsWithL_of_startsWithL (p := hdStars) (by decide)
    (Bool.of_not_eq_false hw)] at h
  simp at h

theorem not_log_heading_of_content {l : Line} (h : startsWithL hdStars l = false) :
    startsWithL hdLOG l = false := by
  by_contra hw
  rw [startsWithL_of_startsWithL (p := hdStars) (by decide)
    (Bool.of_not_eq_false hw)] at h
  simp at h

theorem not_analysis_heading_of_content {l : Line} (h : startsWithL hdStars l = false) :
    startsWithL hdANALYSIS l = false := by
  by_contra hw
  rw [startsWithL_of_startsWithL (p := hdStars) (by decide)
    (Bool.of_not_eq_false hw)] at h
  simp at h

theorem not_summary_heading_of_content {l : Line} (h : startsWithL hdStars l = false) :
    startsWithL hdSUMMARY l = false := by
  by_contra hw
  rw [startsWithL_of_startsWithL (p := hdStars) (by decide)
    (Bool.of_not_eq_false hw)] at h
  simp at h

/-- Processing a well-formed content line: falls through all four
heading branches and appends to the active section accumulator. -/
theorem parseLine_content (pokemon1 pokemon2 : SimplifiedPokemon) (st : ParseState)
    {l : Line} (h : ContentLine l) :
    parseLine pokemon1 pokemon2 st l =
      match st.currentSection with
      | Sect.battleLog => { st with battleLog := st.battleLog ++ [l] }
      | Sect.analysis =>
          { st with analysis := st.analysis ++ (if st.analysis = [] then [] else [' ']) ++ l }
      | Sect.summary =>
          { st with summary := st.summary ++ (if st.summary = [] then [] else [' ']) ++ l }
      | _ => st := by
  obtain ⟨ht, hne, hstars, -⟩ := h
  unfold parseLine
  rw [ht]
  rw [if_neg (by simp [not_winner_heading_of_content hstars]),
      if_neg (by simp [not_log_heading_of_content hstars]),
      if_neg (by simp [not_analysis_heading_of_content hstars]),
      if_neg (by simp [not_summary_heading_of_content hstars]),
      if_pos (by simp [hne, hstars])]

/-- Processing the `'**WINNER:** …'` line: records the declared winner
and selects the loser by case-insensitive comparison with creature 1. -/
theorem parseLine_winner_line (pokemon1 pokemon2 : SimplifiedPokemon) (st : ParseState)
    {w : Line} (hw : jsTrim w = w) (hne : w ≠ []) :
    parseLine pokemon1 pokemon2 st (hdWINNER ++ w) =
      { st with
        currentSection := Sect.winner
        winner := w
        loser := if jsToLower w = jsToLower pokemon1.name.data
                 then pokemon2.name.data else pokemon1.name.data } := by
  have htrim : jsTrim (hdWINNER ++ w) = hdWINNER ++ w :=
    jsTrim_hd_append (show hdWINNER = '*' :: "*WINNER:**".data from rfl)
      (by decide) hw hne
  unfold parseLine
  rw [htrim, if_pos (startsWithL_append_self hdWINNER w),
      replaceFirst_append_self (by decide) w, hw]

/-- Processing a bare section heading line. -/
theorem parseLine_log_heading (pokemon1 pokemon2 : SimplifiedPokemon) (st : ParseState) :
    parseLine pokemon1 pokemon2 st hdLOG = { st with currentSection := Sect.battleLog } := by
  unfold parseLine
  rw [show jsTrim hdLOG = hdLOG by decide,
      if_neg (by simp [show startsWithL hdWINNER hdLOG = false by decide]),
      if_pos (show startsWithL hdLOG hdLOG = true by decide)]

theorem parseLine_analysis_heading (pokemon1 pokemon2 : SimplifiedPokemon) (st : ParseState) :
    parseLine pokemon1 pokemon2 st hdANALYSIS =
      { st with currentSection := Sect.analysis } := by
  unfold parseLine
  rw [show jsTrim hdANALYSIS = hdANALYSIS by decide,
      if_neg (by simp [show startsWithL hdWINNER hdANALYSIS = false by decide]),
      if_neg (by simp [show startsWithL hdLOG hdANALYSIS = false by decide]),
      if_pos (show startsWithL hdANALYSIS hdANALYSIS = true by decide)]

theorem parseLine_summary_heading (pokemon1 pokemon2 : SimplifiedPokemon) (st : ParseState) :
    parseLine pokemon1 pokemon2 st hdSUMMARY =
      { st with currentSection := Sect.summary } := by
  unfold parseLine
  rw [show jsTrim hdSUMMARY = hdSUMMARY by decide,
      if_neg (by simp [show startsWithL hdWINNER hdSUMMARY = false by decide]),
      if_neg (by simp [show startsWithL hdLOG hdSUMMARY = false by decide]),
      if_neg (by simp [show startsWithL hdANALYSIS hdSUMMARY = false by decide]),
      if_pos (show startsWithL hdSUMMARY hdSUMMARY = true by decide)]

end Gemini

namespace Gemini

theorem parseLine_content_log (pokemon1 pokemon2 : SimplifiedPokemon) {st : ParseState}
    (hsec : st.currentSection = Sect.battleLog) {l : Line} (h : ContentLine l) :
    parseLine pokemon1 pokemon2 st l = { st with battleLog := st.battleLog ++ [l] } := by
  rw [parseLine_content pokemon1 pokemon2 st h, hsec]

theorem parseLine_content_analysis (pokemon1 pokemon2 : SimplifiedPokemon) {st : ParseState}
    (hsec : st.currentSection = Sect.analysis) {l : Line} (h : ContentLine l) :
    parseLine pokemon1 pokemon2 st l =
      { st with analysis := st.analysis ++ (if st.analysis = [] then [] else [' ']) ++ l } := by
  rw [parseLine_content pokemon1 pokemon2 st h, hsec]

theorem parseLine_content_summary (pokemon1 pokemon2 : SimplifiedPokemon) {st : ParseState}
    (hsec : st.currentSection = Sect.summary) {l : Line} (h : ContentLine l) :
    parseLine pokemon1 pokemon2 st l =
      { st with summary := st.summary ++ (if st.summary = [] then [] else [' ']) ++ l } := by
  rw [parseLine_content pokemon1 pokemon2 st h, hsec]

theorem foldl_content_log (pokemon1 pokemon2 : SimplifiedPokemon) {st : ParseState}
    (hsec : st.currentSection = Sect.battleLog)
    {L : List Line} (h : ∀ x ∈ L, ContentLine x) :
    L.foldl (parseLine pokemon1 pokemon2) st = { st with battleLog := st.battleLog ++ L } := by
  induction L generalizing st with
  | nil => simp
  | cons x xs ih =>
    rw [List.foldl_cons, parseLine_content_log pokemon1 pokemon2 hsec (h x (List.mem_cons_self _ _)),
      @ih { st with battleLog := st.battleLog ++ [x] } hsec
        (fun y hy => h y (List.mem_cons_of_mem _ hy))]
    simp

theorem foldl_content_analysis (pokemon1 pokemon2 : SimplifiedPokemon) {st : ParseState}
    (hsec : st.currentSection = Sect.analysis)
    {A : List Line} (h : ∀ x ∈ A, ContentLine x) :
    A.foldl (parseLine pokemon1 pokemon2) st = { st with analysis := joinFrom st.analysis A } := by
  induction A generalizing st with
  | nil => simp [joinFrom]
  | cons x xs ih =>
    rw [List.foldl_cons,
      parseLine_content_analysis pokemon1 pokemon2 hsec (h x (List.mem_cons_self _ _)),
      @ih { st with
            analysis := st.analysis ++ (if st.analysis = [] then [] else [' ']) ++ x } hsec
        (fun y hy => h y (List.mem_cons_of_mem _ hy))]
    rfl

theorem foldl_content_summary (pokemon1 pokemon2 : SimplifiedPokemon) {st : ParseState}
    (hsec : st.currentSection = Sect.summary)
    {S : List Line} (h : ∀ x ∈ S, ContentLine x) :
    S.foldl (parseLine pokemon1 pokemon2) st = { st with summary := joinFrom st.summary S } := by
  induction S generalizing st with
  | nil => simp [joinFrom]
  | cons x xs ih =>
    rw [List.foldl_cons,
      parseLine_content_summary pokemon1 pokemon2 hsec (h x (List.mem_cons_self _ _)),
      @ih { st with
            summary := st.summary ++ (if st.summary = [] then [] else [' ']) ++ x } hsec
        (fun y hy => h y (List.mem_cons_of_mem _ hy))]
    rfl

theorem foldl_blockLines (pokemon1 pokemon2 : SimplifiedPokemon) {wname : Line}
    {L A S : List Line} (hw : jsTrim wname = wname) (hwne : wname ≠ [])
    (hL : ∀ x ∈ L, ContentLine x) (hA : ∀ x ∈ A, ContentLine x)
    (hS : ∀ x ∈ S, ContentLine x) (k : BlockKind) (st : ParseState) :
    (blockLines wname L A S k).foldl (parseLine pokemon1 pokemon2) st =
      blockEffect pokemon1 pokemon2 wname L A S k st := by
  cases k with
  | w =>
    show [hdWINNER ++ wname].foldl _ st = _
    rw [List.foldl_cons, parseLine_winner_line pokemon1 pokemon2 st hw hwne]
    rfl
  | l =>
    show (hdLOG :: L).foldl _ st = _
    rw [List.foldl_cons, parseLine_log_heading pokemon1 pokemon2 st,
      foldl_content_log pokemon1 pokemon2 rfl hL]
    rfl
  | a =>
    show (hdANALYSIS :: A).foldl _ st = _
    rw [List.foldl_cons, parseLine_analysis_heading pokemon1 pokemon2 st,
      foldl_content_analysis pokemon1 pokemon2 rfl hA]
    rfl
  | s =>
    show (hdSUMMARY :: S).foldl _ st = _
    rw [List.foldl_cons, parseLine_summary_heading pokemon1 pokemon2 st,
      foldl_content_summary pokemon1 pokemon2 rfl hS]
    rfl

/-- Folding the parser over the concatenated lines of a block sequence
equals folding the per-block effects. -/
theorem foldl_blocks (pokemon1 pokemon2 : SimplifiedPokemon) {wname : Line}
    {L A S : List Line} (hw : jsTrim wname = wname) (hwne : wname ≠ [])
    (hL : ∀ x ∈ L, ContentLine x) (hA : ∀ x ∈ A, ContentLine x)
    (hS : ∀ x ∈ S, ContentLine x) (blocks : List BlockKind) (st : ParseState) :
    ((blocks.map (blockLines wname L A S)).flatten).foldl (parseLine pokemon1 pokemon2) st =
      blocks.foldl
        (fun st k => blockEffect pokemon1 pokemon2 wname L A S k st) st := by
  induction blocks generalizing st with
  | nil => rfl
  | cons k ks ih =>
    rw [List.map_cons, List.flatten_cons, List.foldl_append,
      foldl_blockLines pokemon1 pokemon2 hw hwne hL hA hS k st, List.foldl_cons, ih]

end Gemini

namespace Gemini

theorem blocksFold_winner (pokemon1 pokemon2 : SimplifiedPokemon) (wname : Line)
    (L A S : List Line) : ∀ (blocks : List BlockKind) (st : ParseState),
    (blocksFold pokemon1 pokemon2 wname L A S st blocks).winner =
      (if BlockKind.w ∈ blocks then wname else st.winner) := by
  intro blocks
  induction blocks with
  | nil => intro st; simp [blocksFold]
  | cons k ks ih =>
    intro st
    show (blocksFold pokemon1 pokemon2 wname L A S
      (blockEffect pokemon1 pokemon2 wname L A S k st) ks).winner = _
    rw [ih]
    cases k <;> simp [blockEffect, List.mem_cons]

theorem blocksFold_loser (pokemon1 pokemon2 : SimplifiedPokemon) (wname : Line)
    (L A S : List Line) : ∀ (blocks : List BlockKind) (st : ParseState),
    (blocksFold pokemon1 pokemon2 wname L A S st blocks).loser =
      (if BlockKind.w ∈ blocks then
        (if jsToLower wname = jsToLower pokemon1.name.data
         then pokemon2.name.data else pokemon1.name.data)
       else st.loser) := by
  intro blocks
  induction blocks with
  | nil => intro st; simp [blocksFold]
  | cons k ks ih =>
    intro st
    show (blocksFold pokemon1 pokemon2 wname L A S
      (blockEffect pokemon1 pokemon2 wname L A S k st) ks).loser = _
    rw [ih]
    cases k <;> simp [blockEffect, List.mem_cons]

theorem blocksFold_battleLog_of_not_mem (pokemon1 pokemon2 : SimplifiedPokemon) (wname : Line)
    (L A S : List Line) {blocks : List BlockKind} (h : BlockKind.l ∉ blocks) :
    ∀ st : ParseState,
    (blocksFold pokemon1 pokemon2 wname L A S st blocks).battleLog = st.battleLog := by
  induction blocks with
  | nil => intro st; rfl
  | cons k ks ih =>
    intro st
    have hk : k ≠ BlockKind.l := fun hk => h (hk ▸ List.mem_cons_self _ _)
    have hks : BlockKind.l ∉ ks := fun hm => h (List.mem_cons_of_mem _ hm)
    show (blocksFold pokemon1 pokemon2 wname L A S
      (blockEffect pokemon1 pokemon2 wname L A S k st) ks).battleLog = _
    rw [ih hks]
    cases k with
    | w => rfl
    | l => exact absurd rfl hk
    | a => rfl
    | s => rfl

theorem blocksFold_battleLog (pokemon1 pokemon2 : SimplifiedPokemon) (wname : Line)
    (L A S : List Line) {blocks : List BlockKind}
    (h : blocks.count BlockKind.l = 1) : ∀ st : ParseState,
    (blocksFold pokemon1 pokemon2 wname L A S st blocks).battleLog = st.battleLog ++ L := by
  induction blocks with
  | nil => simp at h
  | cons k ks ih =>
    intro st
    rw [List.count_cons] at h
    show (blocksFold pokemon1 pokemon2 wname L A S
      (blockEffect pokemon1 pokemon2 wname L A S k st) ks).battleLog = _
    by_cases hk : k = BlockKind.l
    · subst hk
      have h0 : List.count BlockKind.l ks = 0 := by simpa using h
      rw [blocksFold_battleLog_of_not_mem pokemon1 pokemon2 wname L A S
        (List.count_eq_zero.mp h0)]
      rfl
    · have h1 : List.count BlockKind.l ks = 1 := by simpa [hk] using h
      rw [ih h1]
      cases k with
      | w => rfl
      | l => exact absurd rfl hk
      | a => rfl
      | s => rfl

theorem blocksFold_analysis_of_not_mem (pokemon1 pokemon2 : SimplifiedPokemon) (wname : Line)
    (L A S : List Line) {blocks : List BlockKind} (h : BlockKind.a ∉ blocks) :
    ∀ st : ParseState,
    (blocksFold pokemon1 pokemon2 wname L A S st blocks).analysis = st.analysis := by
  induction blocks with
  | nil => intro st; rfl
  | cons k ks ih =>
    intro st
    have hk : k ≠ BlockKind.a := fun hk => h (hk ▸ List.mem_cons_self _ _)
    have hks : BlockKind.a ∉ ks := fun hm => h (List.mem_cons_of_mem _ hm)
    show (blocksFold pokemon1 pokemon2 wname L A S
      (blockEffect pokemon1 pokemon2 wname L A S k st) ks).analysis = _
    rw [ih hks]
    cases k with
    | w => rfl
    | l => rfl
    | a => exact absurd rfl hk
    | s => rfl

theorem blocksFold_analysis (pokemon1 pokemon2 : SimplifiedPokemon) (wname : Line)
    (L A S : List Line) {blocks : List BlockKind}
    (h : blocks.count BlockKind.a = 1) : ∀ st : ParseState,
    (blocksFold pokemon1 pokemon2 wname L A S st blocks).analysis =
      joinFrom st.analysis A := by
  induction blocks with
  | nil => simp at h
  | cons k ks ih =>
    intro st
    rw [List.count_cons] at h
    show (blocksFold pokemon1 pokemon2 wname L A S
      (blockEffect pokemon1 pokemon2 wname L A S k st) ks).analysis = _
    by_cases hk : k = BlockKind.a
    · subst hk
      have h0 : List.count BlockKind.a ks = 0 := by simpa using h
      rw [blocksFold_analysis_of_not_mem pokemon1 pokemon2 wname L A S
        (List.count_eq_zero.mp h0)]
      rfl
    · have h1 : List.count BlockKind.a ks = 1 := by simpa [hk] using h
      rw [ih h1]
      cases k with
      | w => rfl
      | l => rfl
      | a => exact absurd rfl hk
      | s => rfl

theorem blocksFold_summary_of_not_mem (pokemon1 pokemon2 : SimplifiedPokemon) (wname : Line)
    (L A S : List Line) {blocks : List BlockKind} (h : BlockKind.s ∉ blocks) :
    ∀ st : ParseState,
    (blocksFold pokemon1 pokemon2 wname L A S st blocks).summary = st.summary := by
  induction blocks with
  | nil => intro st; rfl
  | cons k ks ih =>
    intro st
    have hk : k ≠ BlockKind.s := fun hk => h (hk ▸ List.mem_cons_self _ _)
    have hks : BlockKind.s ∉ ks := fun hm => h (List.mem_cons_of_mem _ hm)
    show (blocksFold pokemon1 pokemon2 wname L A S
      (blockEffect pokemon1 pokemon2 wname L A S k st) ks).summary = _
    rw [ih hks]
    cases k with
    | w => rfl
    | l => rfl
    | a => rfl
    | s => exact absurd rfl hk

theorem blocksFold_summary (pokemon1 pokemon2 : SimplifiedPokemon) (wname : Line)
    (L A S : List Line) {blocks : List BlockKind}
    (h : blocks.count BlockKind.s = 1) : ∀ st : ParseState,
    (blocksFold pokemon1 pokemon2 wname L A S st blocks).summary =
      joinFrom st.summary S := by
  induction blocks with
  | nil => simp at h
  | cons k ks ih =>
    intro st
    rw [List.count_cons] at h
    show (blocksFold pokemon1 pokemon2 wname L A S
      (blockEffect pokemon1 pokemon2 wname L A S k st) ks).summary = _
    by_cases hk : k = BlockKind.s
    · subst hk
      have h0 : List.count BlockKind.s ks = 0 := by simpa using h
      rw [blocksFold_summary_of_not_mem pokemon1 pokemon2 wname L A S
        (List.count_eq_zero.mp h0)]
      rfl
    · have h1 : List.count BlockKind.s ks = 1 := by simpa [hk] using h
      rw [ih h1]
      cases k with
      | w => rfl
      | l => rfl
      | a => rfl
      | s => exact absurd rfl hk

end Gemini

namespace Gemini

/-- A line whose trimmed form does not announce a winner leaves the
`winner` and `loser` locals untouched. -/
theorem parseLine_preserves_winner (pokemon1 pokemon2 : SimplifiedPokemon) (st : ParseState)
    {l : Line} (h : startsWithL hdWINNER (jsTrim l) = false) :
    (parseLine pokemon1 pokemon2 st l).winner = st.winner ∧
    (parseLine pokemon1 pokemon2 st l).loser = st.loser := by
  unfold parseLine
  rw [if_neg (by simp [h])]
  refine ⟨?_, ?_⟩ <;> (repeat' split) <;> rfl

theorem foldl_preserves_winner (pokemon1 pokemon2 : SimplifiedPokemon) {ls : List Line}
    (h : ∀ l ∈ ls, startsWithL hdWINNER (jsTrim l) = false) (st : ParseState) :
    (ls.foldl (parseLine pokemon1 pokemon2) st).winner = st.winner ∧
    (ls.foldl (parseLine pokemon1 pokemon2) st).loser = st.loser := by
  induction ls generalizing st with
  | nil => exact ⟨rfl, rfl⟩
  | cons x xs ih =>
    obtain ⟨hw, hl⟩ := parseLine_preserves_winner pokemon1 pokemon2 st
      (h x (List.mem_cons_self _ _))
    obtain ⟨ihw, ihl⟩ := ih (fun y hy => h y (List.mem_cons_of_mem _ hy))
      (parseLine pokemon1 pokemon2 st x)
    exact ⟨ihw.trans hw, ihl.trans hl⟩

/-- A line whose trimmed form does announce a winner: the declared name
is whatever follows the marker, trimmed, and the loser is selected by
case-insensitive comparison with creature 1 only. -/
theorem parseLine_winner_any (pokemon1 pokemon2 : SimplifiedPokemon) (st : ParseState)
    {l : Line} (h : startsWithL hdWINNER (jsTrim l) = true) :
    parseLine pokemon1 pokemon2 st l =
      { st with
        currentSection := Sect.winner
        winner := jsTrim (replaceFirst hdWINNER (jsTrim l))
        loser := if jsToLower (jsTrim (replaceFirst hdWINNER (jsTrim l))) =
                    jsToLower pokemon1.name.data
                 then pokemon2.name.data else pokemon1.name.data } := by
  unfold parseLine
  rw [if_pos h]

end Gemini

namespace PokeApi

theorem mapGet_mapSet_self {β : Type} (m : List (String × β)) (k : String) (v : β) :
    mapGet (mapSet m k v) k = some v := by
  induction m with
  | nil =>
    show mapGet [(k, v)] k = some v
    simp only [mapGet]
    rw [List.find?_cons_of_pos _ (by simp)]
    rfl
  | cons p rest ih =>
    obtain ⟨k1, v1⟩ := p
    rw [mapSet]
    by_cases h : k1 = k
    · rw [if_pos (by simp [h])]
      simp only [mapGet]
      rw [List.find?_cons_of_pos _ (by simp)]
      rfl
    · rw [if_neg (by simp [h])]
      simp only [mapGet]
      rw [List.find?_cons_of_neg _ (by simp [h])]
      exact ih

theorem mapGet_mapSet_ne {β : Type} (m : List (String × β)) (k : String) (v : β)
    {k2 : String} (h : k2 ≠ k) : mapGet (mapSet m k v) k2 = mapGet m k2 := by
  induction m with
  | nil =>
    show mapGet [(k, v)] k2 = mapGet [] k2
    simp only [mapGet]
    rw [List.find?_cons_of_neg _ (by simp [Ne.symm h])]
  | cons p rest ih =>
    obtain ⟨k1, v1⟩ := p
    rw [mapSet]
    by_cases h1 : k1 = k
    · rw [if_pos (by simp [h1])]
      subst h1
      simp only [mapGet]
      rw [List.find?_cons_of_neg _ (by simp [Ne.symm h]),
        List.find?_cons_of_neg _ (by simp [Ne.symm h])]
    · rw [if_neg (by simp [h1])]
      by_cases h2 : k1 = k2
      · subst h2
        simp only [mapGet]
        rw [List.find?_cons_of_pos _ (by simp), List.find?_cons_of_pos _ (by simp)]
      · simp only [mapGet]
        rw [List.find?_cons_of_neg _ (by simp [h2]), List.find?_cons_of_neg _ (by simp [h2])]
        exact ih

end PokeApi

/-! ### Claim theorems -/

/-- C1 (counterexample): with two concrete creatures of equal `total`
(both 300) and distinct names, both statistical fallbacks — the parser
fallback on a narrative with no WINNER heading and the adapter fallback
on model failure — name creature 2, not creature 1, as the winner, and
creature 1 as the loser. -/
theorem claim_C1_counterexample :
    alphaMon.stats.total = betaMon.stats.total ∧
    betaMon.name ≠ alphaMon.name ∧
    (Gemini.parseBattleResult [] alphaMon betaMon).winner = betaMon.name.data ∧
    (Gemini.parseBattleResult [] alphaMon betaMon).loser = alphaMon.name.data ∧
    (WebServer.fallbackBattleResult alphaMon betaMon "model failed").1.winner = betaMon.name ∧
    (WebServer.fallbackBattleResult alphaMon betaMon "model failed").1.loser = alphaMon.name := by
  refine ⟨rfl, by decide, ?_, ?_, ?_, ?_⟩ <;> rfl

/-- C1 (amended): for every pair of creatures with equal `stats.total`,
the statistical fallback (both the parser winner fallback when no WINNER
heading occurs in the narrative, and the adapter full fallback on model
failure) names creature 2 (the second argument) as the winner and
creature 1 as the loser — the strict `>` comparison resolves ties to its
else branch, and the loser selection then yields creature 1's name in
both of its branches. -/
theorem claim_C1_tie_favors_creature2 (p1 p2 : SimplifiedPokemon) (narrative : Line)
    (msg : String) (heq : p1.stats.total = p2.stats.total)
    (hnw : ∀ l ∈ splitLines narrative, startsWithL Gemini.hdWINNER (jsTrim l) = false) :
    (Gemini.parseBattleResult narrative p1 p2).winner = p2.name.data ∧
    (Gemini.parseBattleResult narrative p1 p2).loser = p1.name.data ∧
    (WebServer.fallbackBattleResult p1 p2 msg).1.winner = p2.name ∧
    (WebServer.fallbackBattleResult p1 p2 msg).1.loser = p1.name := by
  have h0 := (Gemini.foldl_preserves_winner p1 p2 hnw
    ⟨[], [], [], [], [], Gemini.Sect.none⟩).1
  refine ⟨?_, ?_, ?_, ?_⟩
  · simp only [Gemini.parseBattleResult, h0]
    simp [heq]
  · simp only [Gemini.parseBattleResult, h0]
    by_cases hnames : p2.name.data = p1.name.data
    · simp [heq, hnames]
    · simp [heq, hnames]
  · simp only [WebServer.fallbackBattleResult]
    simp [heq]
  · simp only [WebServer.fallbackBattleResult]
    by_cases hnames : p2.name = p1.name
    · simp [heq, hnames]
    · simp [heq, hnames]

/-- C1 (witness): the amended tie-break theorem applied at the two
concrete equal-total creatures and a heading-free narrative. -/
theorem claim_C1_witness :
    (Gemini.parseBattleResult "just text".data alphaMon betaMon).winner = betaMon.name.data ∧
    (Gemini.parseBattleResult "just text".data alphaMon betaMon).loser = alphaMon.name.data ∧
    (WebServer.fallbackBattleResult alphaMon betaMon "quota").1.winner = betaMon.name ∧
    (WebServer.fallbackBattleResult alphaMon betaMon "quota").1.loser = alphaMon.name :=
  claim_C1_tie_favors_creature2 alphaMon betaMon "just text".data "quota" rfl (by decide)

/-- C3 (counterexample): the adapter fallback battle log at a concrete
input has six entries, not five. -/
theorem claim_C3_counterexample :
    (WebServer.fallbackBattleResult alphaMon betaMon "model failed").1.battleLog.length ≠ 5 ∧
    (WebServer.fallbackBattleResult alphaMon betaMon "model failed").1.battleLog.length = 6 := by
  exact ⟨by decide, rfl⟩

/-- C3 (amended): whenever the model invocation fails and the adapter
constructs the statistical fallback BattleOutcome, the resulting
battleLog contains exactly six entries, both as built by
`fallbackBattleResult` and as delivered in the `POST /api/battle`
response payload. -/
theorem claim_C3_fallback_log_has_six_entries (d1 d2 : SimplifiedPokemon)
    (m nowIso a b : String) :
    (WebServer.fallbackBattleResult d1 d2 m).1.battleLog.length = 6 ∧
    WebServer.postApiBattle (some a) (some b) (Except.ok d1) (Except.ok d2)
        (Except.error m) nowIso =
      WebServer.ApiResponse.ok
        ⟨(WebServer.fallbackBattleResult d1 d2 m).1,
         some (WebServer.fallbackBattleResult d1 d2 m).2,
         ⟨nowIso, true, d1.name, d2.name, "success"⟩⟩ := by
  exact ⟨rfl, rfl⟩

/-- C2 (counterexample): on the tool-invocation surface, with both
fetches successful and the model invocation throwing, the caller
receives an error-flagged result (the wrapped error text), not a
statistical-fallback BattleOutcome. -/
theorem claim_C2_counterexample :
    (Tools.battleSimulation "pikachu" "onix" (Except.ok alphaMon) (Except.ok betaMon)
      (Except.error "quota exceeded")).isError = true ∧
    (Tools.battleSimulation "pikachu" "onix" (Except.ok alphaMon) (Except.ok betaMon)
      (Except.error "quota exceeded")).text =
      "Error simulating battle: battleSimulation: quota exceeded" := by
  exact ⟨by decide, by decide⟩

/-- C2 (amended): when both creature fetches succeed and the model
invocation throws, only the HTTP `POST /api/battle` surface recovers
with a complete statistical-fallback BattleOutcome (with the failure
recorded in the metadata and the `geminiError` witness); the
tool-invocation surface instead returns an error-flagged result. -/
theorem claim_C2_fallback_only_on_http (n1 n2 : String) (d1 d2 : SimplifiedPokemon)
    (m nowIso : String) :
    WebServer.postApiBattle (some n1) (some n2) (Except.ok d1) (Except.ok d2)
        (Except.error m) nowIso =
      WebServer.ApiResponse.ok
        ⟨(WebServer.fallbackBattleResult d1 d2 m).1,
         some ⟨true, m, true⟩,
         ⟨nowIso, true, d1.name, d2.name, "success"⟩⟩ ∧
    (Tools.battleSimulation n1 n2 (Except.ok d1) (Except.ok d2)
      (Except.error m)).isError = true := by
  constructor
  · rfl
  · simp only [Tools.battleSimulation]
    split <;> rfl

theorem statByName_of_none {stats : List PokemonStat} {n : String}
    (h : stats.find? (fun s => s.stat.name == n) = none) :
    PokeApi.statByName stats n = 0 := by
  unfold PokeApi.statByName
  rw [h]
  rfl

/-- C5: for every pair of fetched records, the returned `stats.total`
equals the sum of the six returned stats, and a stat name absent from
the raw record is extracted as `0` (extraction is total). -/
theorem claim_C5_total_is_sum (pokemon : Pokemon) (species : PokemonSpecies) :
    ((PokeApi.transformToSimplifiedPokemon pokemon species).stats.total =
      (PokeApi.transformToSimplifiedPokemon pokemon species).stats.hp +
      (PokeApi.transformToSimplifiedPokemon pokemon species).stats.attack +
      (PokeApi.transformToSimplifiedPokemon pokemon species).stats.defense +
      (PokeApi.transformToSimplifiedPokemon pokemon species).stats.specialAttack +
      (PokeApi.transformToSimplifiedPokemon pokemon species).stats.specialDefense +
      (PokeApi.transformToSimplifiedPokemon pokemon species).stats.speed) ∧
    (pokemon.stats.find? (fun s => s.stat.name == "hp") = none →
      (PokeApi.transformToSimplifiedPokemon pokemon species).stats.hp = 0) ∧
    (pokemon.stats.find? (fun s => s.stat.name == "attack") = none →
      (PokeApi.transformToSimplifiedPokemon pokemon species).stats.attack = 0) ∧
    (pokemon.stats.find? (fun s => s.stat.name == "defense") = none →
      (PokeApi.transformToSimplifiedPokemon pokemon species).stats.defense = 0) ∧
    (pokemon.stats.find? (fun s => s.stat.name == "special-attack") = none →
      (PokeApi.transformToSimplifiedPokemon pokemon species).stats.specialAttack = 0) ∧
    (pokemon.stats.find? (fun s => s.stat.name == "special-defense") = none →
      (PokeApi.transformToSimplifiedPokemon pokemon species).stats.specialDefense = 0) ∧
    (pokemon.stats.find? (fun s => s.stat.name == "speed") = none →
      (PokeApi.transformToSimplifiedPokemon pokemon species).stats.speed = 0) := by
  refine ⟨rfl, ?_, ?_, ?_, ?_, ?_, ?_⟩ <;>
    exact fun h => statByName_of_none h

/-- C5 (witness): the sum invariant and the missing-stat default applied
to a raw record with an empty stat list. -/
theorem claim_C5_witness :
    (PokeApi.transformToSimplifiedPokemon bareMonRaw bareSpecies).stats.total =
      (PokeApi.transformToSimplifiedPokemon bareMonRaw bareSpecies).stats.hp +
      (PokeApi.transformToSimplifiedPokemon bareMonRaw bareSpecies).stats.attack +
      (PokeApi.transformToSimplifiedPokemon bareMonRaw bareSpecies).stats.defense +
      (PokeApi.transformToSimplifiedPokemon bareMonRaw bareSpecies).stats.specialAttack +
      (PokeApi.transformToSimplifiedPokemon bareMonRaw bareSpecies).stats.specialDefense +
      (PokeApi.transformToSimplifiedPokemon bareMonRaw bareSpecies).stats.speed ∧
    (PokeApi.transformToSimplifiedPokemon bareMonRaw bareSpecies).stats.hp = 0 :=
  ⟨(claim_C5_total_is_sum bareMonRaw bareSpecies).1,
   (claim_C5_total_is_sum bareMonRaw bareSpecies).2.1 rfl⟩

/-- C7 (counterexample): a negative limit is passed through unclamped
(the code only caps from above), so the effective limit is not in
`[1, 100]`. -/
theorem claim_C7_counterexample :
    (Tools.getPokemonListArgs (some (-5)) (some 0)).1 = -5 ∧
    ¬ (1 ≤ (Tools.getPokemonListArgs (some (-5)) (some 0)).1) := by
  exact ⟨rfl, by decide⟩

/-- C7 (amended): the effective limit passed to the data client is
capped above at 100 via `Math.min` (no lower-bound clamp: a nonzero
limit `v` yields `min v 100`, so negative values pass through),
defaults to 20 when absent, and the offset defaults to 0 when absent;
in particular a call with limit 200 yields an effective limit of 100. -/
theorem claim_C7_limit_capped_above (limit offset : Option Int) :
    (Tools.getPokemonListArgs limit offset).1 ≤ 100 ∧
    (limit = none → (Tools.getPokemonListArgs limit offset).1 = 20) ∧
    (offset = none → (Tools.getPokemonListArgs limit offset).2 = 0) ∧
    (∀ v : Int, limit = some v → v ≠ 0 →
      (Tools.getPokemonListArgs limit offset).1 = min v 100) ∧
    (Tools.getPokemonListArgs (some 200) offset).1 = 100 := by
  refine ⟨min_le_right _ _, ?_, ?_, ?_, rfl⟩
  · intro h
    subst h
    rfl
  · intro h
    subst h
    rfl
  · intro v hv hnz
    subst hv
    show min (if v = 0 then 20 else v) 100 = min v 100
    rw [if_neg hnz]

/-- C7 (witness): the capped-limit theorem applied at limit 200 and at
absent arguments. -/
theorem claim_C7_witness :
    (Tools.getPokemonListArgs (some 200) (some 0)).1 ≤ 100 ∧
    (Tools.getPokemonListArgs none none).1 = 20 ∧
    (Tools.getPokemonListArgs (some 200) none).2 = 0 ∧
    (Tools.getPokemonListArgs (some 200) (some 0)).1 = min 200 100 ∧
    (Tools.getPokemonListArgs (some 200) (some 0)).1 = 100 :=
  ⟨(claim_C7_limit_capped_above (some 200) (some 0)).1,
   (claim_C7_limit_capped_above none none).2.1 rfl,
   (claim_C7_limit_capped_above (some 200) none).2.2.1 rfl,
   (claim_C7_limit_capped_above (some 200) (some 0)).2.2.2.1 200 rfl (by decide),
   (claim_C7_limit_capped_above (some 200) (some 0)).2.2.2.2⟩

/-- C8 (counterexample): a raw record whose two elemental slots repeat
the name `fire` (and two ability slots repeat `sturdy`) is transformed
into lists with duplicates — the projection does not deduplicate. -/
theorem claim_C8_counterexample :
    (PokeApi.transformToSimplifiedPokemon dupMonRaw dupSpecies).types = ["fire", "fire"] ∧
    ¬ (PokeApi.transformToSimplifiedPokemon dupMonRaw dupSpecies).types.Nodup ∧
    (PokeApi.transformToSimplifiedPokemon dupMonRaw dupSpecies).abilities =
      ["sturdy", "sturdy"] ∧
    ¬ (PokeApi.transformToSimplifiedPokemon dupMonRaw dupSpecies).abilities.Nodup := by
  refine ⟨rfl, by decide, rfl, by decide⟩

/-- C8 (amended): the types and abilities lists are each ordered by slot
index ascending (the image of a slot-sorted permutation of the raw
entries), but duplicates are retained — there is no deduplication. -/
theorem claim_C8_slot_sorted_not_dedup (pokemon : Pokemon) (species : PokemonSpecies) :
    (∃ ts : List PokemonType, ts.Perm pokemon.types ∧ ts.Sorted PokeApi.slotLe ∧
      (PokeApi.transformToSimplifiedPokemon pokemon species).types =
        ts.map (fun t => t.type.name)) ∧
    (∃ abl : List PokemonAbility, abl.Perm pokemon.abilities ∧ abl.Sorted PokeApi.slotLeA ∧
      (PokeApi.transformToSimplifiedPokemon pokemon species).abilities =
        abl.map (fun a => a.ability.name)) := by
  constructor
  · exact ⟨pokemon.types.insertionSort PokeApi.slotLe,
      List.perm_insertionSort _ _, List.sorted_insertionSort _ _, rfl⟩
  · exact ⟨pokemon.abilities.insertionSort PokeApi.slotLeA,
      List.perm_insertionSort _ _, List.sorted_insertionSort _ _, rfl⟩

/-- C9: for every endpoint key, a `fetchWithCache` call finding an entry
whose age is strictly below the 30-minute TTL returns the cached payload
with no remote request and leaves the cache unchanged; a call finding an
entry at or past the TTL issues a remote request and (on success)
overwrites the entry with the fresh payload and timestamp, while a
failed refresh leaves the expired entry in place (no proactive
eviction); a miss populates the entry; and no call ever touches any
other key. -/
theorem claim_C9_cache_ttl (α : Type) (cache : PokeApi.Cache α) (now : Int)
    (endpoint : String) (remote : Except String α) (d : α) (t : Int) :
    (PokeApi.mapGet cache endpoint = some ⟨d, t⟩ → now - t < PokeApi.CACHE_TTL →
      PokeApi.fetchWithCache cache now endpoint remote = ⟨Except.ok d, cache, false⟩) ∧
    (PokeApi.mapGet cache endpoint = some ⟨d, t⟩ → PokeApi.CACHE_TTL ≤ now - t →
      (PokeApi.fetchWithCache cache now endpoint remote).remoteCalled = true ∧
      (∀ d2 : α, remote = Except.ok d2 →
        PokeApi.mapGet (PokeApi.fetchWithCache cache now endpoint remote).cache endpoint =
          some ⟨d2, now⟩) ∧
      (∀ m : String, remote = Except.error m →
        (PokeApi.fetchWithCache cache now endpoint remote).cache = cache)) ∧
    (PokeApi.mapGet cache endpoint = none → ∀ d2 : α, remote = Except.ok d2 →
      PokeApi.fetchWithCache cache now endpoint remote =
        ⟨Except.ok d2, PokeApi.mapSet cache endpoint ⟨d2, now⟩, true⟩ ∧
      PokeApi.mapGet (PokeApi.mapSet cache endpoint ⟨d2, now⟩) endpoint = some ⟨d2, now⟩) ∧
    (∀ k : String, k ≠ endpoint →
      PokeApi.mapGet (PokeApi.fetchWithCache cache now endpoint remote).cache k =
        PokeApi.mapGet cache k) := by
  refine ⟨?_, ?_, ?_, ?_⟩
  · intro hm hv
    unfold PokeApi.fetchWithCache
    simp only [hm]
    rw [if_pos (show PokeApi.isValidCache now ⟨d, t⟩ = true by
      simpa [PokeApi.isValidCache] using hv)]
  · intro hm hv
    have hneg : PokeApi.isValidCache now ⟨d, t⟩ = false := by
      simp only [PokeApi.isValidCache, decide_eq_false_iff_not]
      omega
    cases remote with
    | ok d2 =>
      unfold PokeApi.fetchWithCache
      simp only [hm, hneg]
      refine ⟨rfl, ?_, ?_⟩
      · intro d3 h3
        cases h3
        exact PokeApi.mapGet_mapSet_self cache endpoint ⟨d2, now⟩
      · intro m hm2
        cases hm2
    | error m0 =>
      unfold PokeApi.fetchWithCache
      simp only [hm, hneg]
      refine ⟨rfl, ?_, ?_⟩
      · intro d3 h3
        cases h3
      · intro m hm2
        rfl
  · intro hm d2 h2
    subst h2
    constructor
    · unfold PokeApi.fetchWithCache
      simp only [hm]
    · exact PokeApi.mapGet_mapSet_self cache endpoint ⟨d2, now⟩
  · intro k hk
    cases hm : PokeApi.mapGet cache endpoint with
    | some entry =>
      unfold PokeApi.fetchWithCache
      simp only [hm]
      by_cases hv : PokeApi.isValidCache now entry = true
      · rw [if_pos hv]
      · rw [if_neg hv]
        cases remote with
        | ok d2 => exact PokeApi.mapGet_mapSet_ne cache endpoint ⟨d2, now⟩ hk
        | error m0 => rfl
    | none =>
      unfold PokeApi.fetchWithCache
      simp only [hm]
      cases remote with
      | ok d2 => exact PokeApi.mapGet_mapSet_ne cache endpoint ⟨d2, now⟩ hk
      | error m0 => rfl

/-- C9 (witness): a concrete two-call scenario — a hit 10 ms after
population returns the cached value with no remote call; a call exactly
at TTL expiry issues a remote call and overwrites the entry. -/
theorem claim_C9_witness :
    PokeApi.fetchWithCache [("/pokemon/pikachu", ⟨(42 : Nat), 0⟩)] 10 "/pokemon/pikachu"
      (Except.ok 99) = ⟨Except.ok 42, [("/pokemon/pikachu", ⟨42, 0⟩)], false⟩ ∧
    (PokeApi.fetchWithCache [("/pokemon/pikachu", ⟨(42 : Nat), 0⟩)] 1800000 "/pokemon/pikachu"
      (Except.ok 99)).remoteCalled = true ∧
    PokeApi.mapGet (PokeApi.fetchWithCache [("/pokemon/pikachu", ⟨(42 : Nat), 0⟩)] 1800000
      "/pokemon/pikachu" (Except.ok 99)).cache "/pokemon/pikachu" = some ⟨99, 1800000⟩ :=
  ⟨(claim_C9_cache_ttl Nat [("/pokemon/pikachu", ⟨42, 0⟩)] 10 "/pokemon/pikachu"
      (Except.ok 99) 42 0).1 (by decide) (by decide),
   ((claim_C9_cache_ttl Nat [("/pokemon/pikachu", ⟨42, 0⟩)] 1800000 "/pokemon/pikachu"
      (Except.ok 99) 42 0).2.1 (by decide) (by decide)).1,
   ((claim_C9_cache_ttl Nat [("/pokemon/pikachu", ⟨42, 0⟩)] 1800000 "/pokemon/pikachu"
      (Except.ok 99) 42 0).2.1 (by decide) (by decide)).2.1 99 rfl⟩

namespace Helpers

theorem unsignedDec_of_digits {l : Line} (hne : l ≠ []) (h : ∀ c ∈ l, isDigitB c = true) :
    unsignedDec l = true := by
  have ht : l.takeWhile isDigitB = l := List.takeWhile_eq_self_iff.mpr h
  have hd : l.dropWhile isDigitB = [] := List.dropWhile_eq_nil_iff.mpr h
  unfold unsignedDec
  rw [ht, hd]
  simp [afterDigits, hne]

/-- Every non-empty all-digit string is recognised by the numeric
check. -/
theorem isNumeric_of_digits {l : Line} (hne : l ≠ []) (h : ∀ c ∈ l, isDigitB c = true) :
    isNumeric l = true := by
  have hs : signedDec l = true := by
    unfold signedDec
    split
    · exact absurd (h '-' (List.mem_cons_self _ _)) (by decide)
    · exact unsignedDec_of_digits hne h
  unfold isNumeric
  split
  · exact absurd (h 'x' (List.mem_cons_of_mem _ (List.mem_cons_self _ _))) (by decide)
  · exact absurd (h 'o' (List.mem_cons_of_mem _ (List.mem_cons_self _ _))) (by decide)
  · exact absurd (h 'b' (List.mem_cons_of_mem _ (List.mem_cons_self _ _))) (by decide)
  · exact hs

theorem string_length_pos_iff (s : String) : s.length > 0 ↔ s ≠ "" := by
  cases s with
  | mk data =>
    cases data with
    | nil => simp [String.length]
    | cons c cs =>
      simp only [String.length, List.length_cons]
      constructor
      · intro _ he
        have : (c :: cs : List Char) = [] := congrArg String.data he
        exact absurd this (by simp)
      · intro _
        exact Nat.succ_pos _

end Helpers

/-- C6 (counterexample): the sanitized string `0x1f` is accepted by the
validator (the JS numeric check treats it as a hex literal), yet it is
neither fully numeric (all digits) nor composed only of lowercase
letters and hyphens, so the claimed characterization of acceptance is
false. -/
theorem claim_C6_counterexample :
    (Helpers.validatePokemonIdentifier "0x1f").isValid = true ∧
    Helpers.sanitizeInput "0x1f" = "0x1f" ∧
    ("0x1f".data.all Helpers.isDigitB) = false ∧
    Helpers.isAlphaHyphen "0x1f".data = false := by
  refine ⟨by decide, by decide, by decide, by decide⟩

/-- C6 (amended): `validatePokemonIdentifier` first sanitizes (trim,
lowercase, strip every character outside `[a-z0-9-]`) and accepts
exactly when the sanitized result is non-empty and is either recognised
by the JS numeric check (which accepts every all-digit string but also
signed/exponent and `0x`/`0o`/`0b` radix forms) or consists only of
lowercase letters and hyphens; in particular `"Pikachu!"` sanitizes to
`"pikachu"` and is valid, `"   "` is invalid, and `"25"` is valid as
numeric. -/
theorem claim_C6_sanitize_validate (s : String) :
    Helpers.validatePokemonIdentifier "Pikachu!" =
      { isValid := true, sanitized := "pikachu" } ∧
    (Helpers.validatePokemonIdentifier "   ").isValid = false ∧
    Helpers.validatePokemonIdentifier "25" = { isValid := true, sanitized := "25" } ∧
    (Helpers.validatePokemonIdentifier s).sanitized = Helpers.sanitizeInput s ∧
    ((Helpers.validatePokemonIdentifier s).isValid = true ↔
      Helpers.sanitizeInput s ≠ "" ∧
      (Helpers.isNumeric (Helpers.sanitizeInput s).data = true ∨
       Helpers.isAlphaHyphen (Helpers.sanitizeInput s).data = true)) ∧
    (∀ l : Line, l ≠ [] → (∀ c ∈ l, Helpers.isDigitB c = true) →
      Helpers.isNumeric l = true) := by
  refine ⟨by decide, by decide, by decide, rfl, ?_,
    fun l h1 h2 => Helpers.isNumeric_of_digits h1 h2⟩
  unfold Helpers.validatePokemonIdentifier
  simp only [Bool.and_eq_true, Bool.or_eq_true, decide_eq_true_eq]
  rw [Helpers.string_length_pos_iff]

/-- C6 (witness): the validation theorem applied at a concrete input,
including the all-digit numeric direction at `"123"`. -/
theorem claim_C6_witness :
    Helpers.validatePokemonIdentifier "Pikachu!" =
      { isValid := true, sanitized := "pikachu" } ∧
    Helpers.isNumeric "123".data = true :=
  ⟨(claim_C6_sanitize_validate "x").1,
   (claim_C6_sanitize_validate "x").2.2.2.2.2 "123".data (by decide) (by decide)⟩

/-- C10: for every model text containing one `**WINNER:**` heading line
whose declared (trimmed) name is non-empty and differs case-insensitively
from creature 1's name — whether or not it matches creature 2's name —
`parseBattleResult` returns that raw declared string as `winner` and
creature 1's name as `loser`, so the returned pair need not name the two
input creatures. -/
theorem claim_C10_raw_winner_kept (pokemon1 pokemon2 : SimplifiedPokemon)
    (pre post : List Line) (wl : Line)
    (hpost : ∀ l ∈ post, startsWithL Gemini.hdWINNER (jsTrim l) = false)
    (hwl : startsWithL Gemini.hdWINNER (jsTrim wl) = true)
    (hnn : ∀ l ∈ pre ++ wl :: post, '\n' ∉ l)
    (hne : jsTrim (replaceFirst Gemini.hdWINNER (jsTrim wl)) ≠ [])
    (hdiff : jsToLower (jsTrim (replaceFirst Gemini.hdWINNER (jsTrim wl))) ≠
      jsToLower pokemon1.name.data) :
    (Gemini.parseBattleResult (joinNL (pre ++ wl :: post)) pokemon1 pokemon2).winner =
      jsTrim (replaceFirst Gemini.hdWINNER (jsTrim wl)) ∧
    (Gemini.parseBattleResult (joinNL (pre ++ wl :: post)) pokemon1 pokemon2).loser =
      pokemon1.name.data := by
  have hsplit : splitLines (joinNL (pre ++ wl :: post)) = pre ++ wl :: post :=
    splitLines_joinNL (by simp) hnn
  have hfold : ((pre ++ wl :: post).foldl (Gemini.parseLine pokemon1 pokemon2)
        ⟨[], [], [], [], [], Gemini.Sect.none⟩).winner =
        jsTrim (replaceFirst Gemini.hdWINNER (jsTrim wl)) ∧
      ((pre ++ wl :: post).foldl (Gemini.parseLine pokemon1 pokemon2)
        ⟨[], [], [], [], [], Gemini.Sect.none⟩).loser = pokemon1.name.data := by
    rw [List.foldl_append, List.foldl_cons,
      Gemini.parseLine_winner_any pokemon1 pokemon2 _ hwl]
    obtain ⟨hpw, hpl⟩ := Gemini.foldl_preserves_winner pokemon1 pokemon2 hpost
      { (pre.foldl (Gemini.parseLine pokemon1 pokemon2) ⟨[], [], [], [], [], Gemini.Sect.none⟩) with
        currentSection := Gemini.Sect.winner
        winner := jsTrim (replaceFirst Gemini.hdWINNER (jsTrim wl))
        loser := if jsToLower (jsTrim (replaceFirst Gemini.hdWINNER (jsTrim wl))) =
                    jsToLower pokemon1.name.data
                 then pokemon2.name.data else pokemon1.name.data }
    refine ⟨hpw.trans rfl, hpl.trans ?_⟩
    show (if jsToLower (jsTrim (replaceFirst Gemini.hdWINNER (jsTrim wl))) =
        jsToLower pokemon1.name.data
      then pokemon2.name.data else pokemon1.name.data) = pokemon1.name.data
    rw [if_neg hdiff]
  constructor
  · simp only [Gemini.parseBattleResult, hsplit, hfold.1]
    rw [if_neg hne]
  · simp only [Gemini.parseBattleResult, hsplit, hfold.1, hfold.2]
    rw [if_neg hne]

/-- C10 (witness): the raw-winner theorem applied at a concrete
narrative declaring `Draw`, which names neither creature. -/
theorem claim_C10_witness :
    (Gemini.parseBattleResult
        (joinNL [" intro".data, "**WINNER:** Draw".data, "closing".data])
        alphaMon betaMon).winner = "Draw".data ∧
    (Gemini.parseBattleResult
        (joinNL [" intro".data, "**WINNER:** Draw".data, "closing".data])
        alphaMon betaMon).loser = alphaMon.name.data := by
  have h := claim_C10_raw_winner_kept alphaMon betaMon [" intro".data] ["closing".data]
    "**WINNER:** Draw".data (by decide) (by decide) (by decide) (by decide) (by decide)
  exact ⟨h.1, h.2⟩

namespace Gemini

theorem foldl_blockList_eq_blocksFold (pokemon1 pokemon2 : SimplifiedPokemon) {wname : Line}
    {L A S : List Line} (hw : jsTrim wname = wname) (hwne : wname ≠ [])
    (hL : ∀ x ∈ L, ContentLine x) (hA : ∀ x ∈ A, ContentLine x)
    (hS : ∀ x ∈ S, ContentLine x) (blocks : List BlockKind) (st : ParseState) :
    ((blocks.map (blockLines wname L A S)).flatten).foldl (parseLine pokemon1 pokemon2) st =
      blocksFold pokemon1 pokemon2 wname L A S st blocks :=
  foldl_blocks pokemon1 pokemon2 hw hwne hL hA hS blocks st

theorem blockLines_no_newline {wname : Line} {L A S : List Line} (hwnn : '\n' ∉ wname)
    (hL : ∀ x ∈ L, ContentLine x) (hA : ∀ x ∈ A, ContentLine x)
    (hS : ∀ x ∈ S, ContentLine x) (blocks : List BlockKind) :
    ∀ l ∈ (blocks.map (blockLines wname L A S)).flatten, '\n' ∉ l := by
  intro l hl
  rw [List.mem_flatten] at hl
  obtain ⟨bl, hbl, hlbl⟩ := hl
  rw [List.mem_map] at hbl
  obtain ⟨k, -, rfl⟩ := hbl
  cases k with
  | w =>
    have hlw : l = hdWINNER ++ wname := by simpa [blockLines] using hlbl
    subst hlw
    intro hmem
    rcases List.mem_append.mp hmem with h | h
    · exact absurd h (by decide)
    · exact hwnn h
  | l =>
    rcases List.mem_cons.mp hlbl with rfl | hmem
    · decide
    · exact (hL l hmem).2.2.2
  | a =>
    rcases List.mem_cons.mp hlbl with rfl | hmem
    · decide
    · exact (hA l hmem).2.2.2
  | s =>
    rcases List.mem_cons.mp hlbl with rfl | hmem
    · decide
    · exact (hS l hmem).2.2.2

end Gemini

/-- C4: for every model text consisting of well-formed `**WINNER:**`,
`**BATTLE LOG:**`, `**STRATEGIC ANALYSIS:**` and `**SUMMARY:**` sections
occurring once each, in any order (the block sequence is any list
containing each section exactly once), with a non-empty trimmed declared
winner name and non-empty, trimmed, non-heading content lines,
`parseBattleResult` returns the declared winner name, the battle-log
lines one list entry per line, and the space-joined analysis and summary
contents. -/
theorem claim_C4_parser_recovers_sections (pokemon1 pokemon2 : SimplifiedPokemon)
    (wname : Line) (L A S : List Line) (blocks : List Gemini.BlockKind)
    (hw : jsTrim wname = wname) (hwne : wname ≠ []) (hwnn : '\n' ∉ wname)
    (hL : ∀ x ∈ L, Gemini.ContentLine x) (hLne : L ≠ [])
    (hA : ∀ x ∈ A, Gemini.ContentLine x) (hAne : A ≠ [])
    (hS : ∀ x ∈ S, Gemini.ContentLine x) (hSne : S ≠ [])
    (hcw : blocks.count Gemini.BlockKind.w = 1)
    (hcl : blocks.count Gemini.BlockKind.l = 1)
    (hca : blocks.count Gemini.BlockKind.a = 1)
    (hcs : blocks.count Gemini.BlockKind.s = 1) :
    (Gemini.parseBattleResult
        (joinNL ((blocks.map (Gemini.blockLines wname L A S)).flatten))
        pokemon1 pokemon2).winner = wname ∧
    (Gemini.parseBattleResult
        (joinNL ((blocks.map (Gemini.blockLines wname L A S)).flatten))
        pokemon1 pokemon2).battleLog = L ∧
    (Gemini.parseBattleResult
        (joinNL ((blocks.map (Gemini.blockLines wname L A S)).flatten))
        pokemon1 pokemon2).analysis = spaceJoin A ∧
    (Gemini.parseBattleResult
        (joinNL ((blocks.map (Gemini.blockLines wname L A S)).flatten))
        pokemon1 pokemon2).summary = spaceJoin S := by
  have hmemw : Gemini.BlockKind.w ∈ blocks := List.count_pos_iff.mp (by omega)
  have hlines_ne : (blocks.map (Gemini.blockLines wname L A S)).flatten ≠ [] := by
    apply List.ne_nil_of_mem (a := Gemini.hdWINNER ++ wname)
    rw [List.mem_flatten]
    exact ⟨Gemini.blockLines wname L A S Gemini.BlockKind.w,
      List.mem_map_of_mem _ hmemw, by simp [Gemini.blockLines]⟩
  have hnn := Gemini.blockLines_no_newline hwnn hL hA hS blocks
  have hsplit : splitLines (joinNL ((blocks.map (Gemini.blockLines wname L A S)).flatten)) =
      (blocks.map (Gemini.blockLines wname L A S)).flatten :=
    splitLines_joinNL hlines_ne hnn
  have hst := Gemini.foldl_blockList_eq_blocksFold pokemon1 pokemon2 hw hwne hL hA hS blocks
    ⟨[], [], [], [], [], Gemini.Sect.none⟩
  have h1 : (((blocks.map (Gemini.blockLines wname L A S)).flatten).foldl
      (Gemini.parseLine pokemon1 pokemon2) ⟨[], [], [], [], [], Gemini.Sect.none⟩).winner =
      wname := by
    rw [hst, Gemini.blocksFold_winner]
    exact if_pos hmemw
  have h2 : (((blocks.map (Gemini.blockLines wname L A S)).flatten).foldl
      (Gemini.parseLine pokemon1 pokemon2) ⟨[], [], [], [], [], Gemini.Sect.none⟩).battleLog =
      L := by
    rw [hst, Gemini.blocksFold_battleLog pokemon1 pokemon2 wname L A S hcl
      ⟨[], [], [], [], [], Gemini.Sect.none⟩]
    simp
  have h3 : (((blocks.map (Gemini.blockLines wname L A S)).flatten).foldl
      (Gemini.parseLine pokemon1 pokemon2) ⟨[], [], [], [], [], Gemini.Sect.none⟩).analysis =
      spaceJoin A := by
    rw [hst, Gemini.blocksFold_analysis pokemon1 pokemon2 wname L A S hca
      ⟨[], [], [], [], [], Gemini.Sect.none⟩]
    obtain ⟨a0, arest, rfl⟩ := List.exists_cons_of_ne_nil hAne
    exact joinFrom_nil_left ((hA a0 (List.mem_cons_self _ _)).2.1) arest
  have h4 : (((blocks.map (Gemini.blockLines wname L A S)).flatten).foldl
      (Gemini.parseLine pokemon1 pokemon2) ⟨[], [], [], [], [], Gemini.Sect.none⟩).summary =
      spaceJoin S := by
    rw [hst, Gemini.blocksFold_summary pokemon1 pokemon2 wname L A S hcs
      ⟨[], [], [], [], [], Gemini.Sect.none⟩]
    obtain ⟨s0, srest, rfl⟩ := List.exists_cons_of_ne_nil hSne
    exact joinFrom_nil_left ((hS s0 (List.mem_cons_self _ _)).2.1) srest
  refine ⟨?_, ?_, ?_, ?_⟩
  · simp only [Gemini.parseBattleResult, hsplit, h1]
    rw [if_neg hwne]
  · simp only [Gemini.parseBattleResult, hsplit, h2]
    rw [if_neg hLne]
  · simp only [Gemini.parseBattleResult, hsplit, h3]
    rw [if_neg (spaceJoin_ne_nil hAne (fun x hx => (hA x hx).2.1))]
  · simp only [Gemini.parseBattleResult, hsplit, h4]
    rw [if_neg (spaceJoin_ne_nil hSne (fun x hx => (hS x hx).2.1))]

/-- C4 (witness): the section-recovery theorem applied at a concrete
narrative whose four sections appear in the order SUMMARY, WINNER,
BATTLE LOG, STRATEGIC ANALYSIS. -/
theorem claim_C4_witness :
    (Gemini.parseBattleResult
        (joinNL (([Gemini.BlockKind.s, Gemini.BlockKind.w, Gemini.BlockKind.l,
            Gemini.BlockKind.a].map
          (Gemini.blockLines "Onix".data
            ["Turn 1: Pikachu used Thunderbolt!".data, "Turn 2: Onix used Rock Throw!".data]
            ["Onix had type advantage.".data, "Defense mattered.".data]
            ["Onix wins.".data])).flatten))
        alphaMon betaMon).winner = "Onix".data ∧
    (Gemini.parseBattleResult
        (joinNL (([Gemini.BlockKind.s, Gemini.BlockKind.w, Gemini.BlockKind.l,
            Gemini.BlockKind.a].map
          (Gemini.blockLines "Onix".data
            ["Turn 1: Pikachu used Thunderbolt!".data, "Turn 2: Onix used Rock Throw!".data]
            ["Onix had type advantage.".data, "Defense mattered.".data]
            ["Onix wins.".data])).flatten))
        alphaMon betaMon).battleLog =
      ["Turn 1: Pikachu used Thunderbolt!".data, "Turn 2: Onix used Rock Throw!".data] ∧
    (Gemini.parseBattleResult
        (joinNL (([Gemini.BlockKind.s, Gemini.BlockKind.w, Gemini.BlockKind.l,
            Gemini.BlockKind.a].map
          (Gemini.blockLines "Onix".data
            ["Turn 1: Pikachu used Thunderbolt!".data, "Turn 2: Onix used Rock Throw!".data]
            ["Onix had type advantage.".data, "Defense mattered.".data]
            ["Onix wins.".data])).flatten))
        alphaMon betaMon).analysis = "Onix had type advantage. Defense mattered.".data ∧
    (Gemini.parseBattleResult
        (joinNL (([Gemini.BlockKind.s, Gemini.BlockKind.w, Gemini.BlockKind.l,
            Gemini.BlockKind.a].map
          (Gemini.blockLines "Onix".data
            ["Turn 1: Pikachu used Thunderbolt!".data, "Turn 2: Onix used Rock Throw!".data]
            ["Onix had type advantage.".data, "Defense mattered.".data]
            ["Onix wins.".data])).flatten))
        alphaMon betaMon).summary = "Onix wins.".data := by
  have h := claim_C4_parser_recovers_sections alphaMon betaMon "Onix".data
    ["Turn 1: Pikachu used Thunderbolt!".data, "Turn 2: Onix used Rock Throw!".data]
    ["Onix had type advantage.".data, "Defense mattered.".data]
    ["Onix wins.".data]
    [Gemini.BlockKind.s, Gemini.BlockKind.w, Gemini.BlockKind.l, Gemini.BlockKind.a]
    (by decide) (by decide) (by decide) (by decide) (by decide) (by decide) (by decide)
    (by decide) (by decide) (by decide) (by decide) (by decide) (by decide)
  exact ⟨h.1, h.2.1, h.2.2.1.trans (by decide), h.2.2.2.trans (by decide)⟩
